import Mathlib

/-!
A shallow embedding of the `pypi-json` library (an async client for the PyPI
JSON API) and proofs about it.

Modelling conventions:

* JSON values are modelled by the inductive `JSON`; a Python `dict` body is a
  `JSON.obj` whose field list is assumed to have distinct keys (Python's JSON
  decoder produces such dicts).
* Python exceptions are modelled by the inductive `PyError`.  The library's own
  exception classes (`exceptions.py`) map to `packageNotFound`, `rateLimited`
  and `serverError`; `aiohttp.ClientError` (transport failures) maps to
  `clientError`; Python's built-in `KeyError`, `ValueError`, `TypeError` and
  `RuntimeError` map to the correspondingly named constructors, and the
  `packaging` library's `InvalidVersion` maps to `invalidVersion`.
* Fallible Python code is modelled with `Except PyError`.
* Fields annotated `str` receive string JSON values; passing a value of a
  different JSON shape to such a field is modelled as a `TypeError`
  (Python would either store the ill-typed value or fail later; no claim
  exercises ill-typed values).
* `datetime.fromisoformat` belongs to the standard library (outside this
  repository); the model keeps the normalized ISO-8601 text (after the
  `replace("Z", "+00:00")` step done in `models.py`) instead of a parsed
  timestamp.  No claim concerns timestamp values.
* `packaging.version.Version` is an external library.  Modelled from the spec:
  a version has release segments and an optional pre-release suffix, parsing
  follows a (simplified) public versioning grammar, and versions carry a total
  order and a prerelease predicate.
* Wall-clock time (`time.monotonic()`) is passed explicitly as a rational
  number; the HTTP transport is a script `Nat → HTTPResult` giving the result
  of the i-th GET issued by a request.
-/

namespace PyPIJsonModel

/-- A JSON value, as produced by `response.json()`. -/
inductive JSON where
  | null
  | bool (b : Bool)
  | num (n : Int)
  | str (s : String)
  | arr (xs : List JSON)
  | obj (fields : List (String × JSON))

/-- Field lookup in a JSON object: `data.get(k)` / `data[k]` both start here.
Returns `none` when the value is not an object or the key is absent. -/
def JSON.lookup : JSON → String → Option JSON
  | .obj fields, k => List.lookup k fields
  | _, _ => none

/-- Python exceptions that can surface from the modelled code. -/
inductive PyError where
  /-- Model of `PackageNotFoundError(package, version=None)` from `exceptions.py`. -/
  | packageNotFound (package : String) (version : Option String)
  /-- Model of `RateLimitError(retry_after=None)` from `exceptions.py`. -/
  | rateLimited (retryAfter : Option Int)
  /-- Model of `PyPIServerError(status_code, message=None)` from `exceptions.py`. -/
  | serverError (status : Nat) (message : Option String)
  /-- Model of `aiohttp.ClientError`: a transport-level failure of the GET. -/
  | clientError
  /-- Built-in `ValueError`, raised by `int()` on a non-integer string. -/
  | valueError (s : String)
  /-- Built-in `KeyError`, raised by `data[k]` when `k` is absent. -/
  | keyError (k : String)
  /-- Model of `packaging.version.InvalidVersion` for an unparseable version string. -/
  | invalidVersion (s : String)
  /-- Built-in `TypeError` (ill-shaped value where a list/str/int is used). -/
  | typeError
  /-- Built-in `RuntimeError` (uninitialized client / loop invariant). -/
  | runtimeError (msg : String)
deriving Repr, DecidableEq

/-- Model of `data[k]`: required field access; `KeyError` when absent. -/
def reqField (d : JSON) (k : String) : Except PyError JSON :=
  match d.lookup k with
  | some v => Except.ok v
  | none => Except.error (PyError.keyError k)

/-- Use of a JSON value where the code expects a string. -/
def JSON.asStr : JSON → Except PyError String
  | .str s => Except.ok s
  | _ => Except.error PyError.typeError

/-- Use of a JSON value where the code expects an integer. -/
def JSON.asInt : JSON → Except PyError Int
  | .num n => Except.ok n
  | _ => Except.error PyError.typeError

/-- Model of `data.get(k)` for a `str | None` field: absent or `null` gives `None`. -/
def getOptStr (d : JSON) (k : String) : Option String :=
  match d.lookup k with
  | some (.str s) => some s
  | _ => none

/-- Model of `data.get(k, [])` (or `data.get(k)` used where a list is required):
absent gives the empty list, a JSON array gives its elements, anything
else fails when iterated. -/
def getListD (d : JSON) (k : String) : Except PyError (List JSON) :=
  match d.lookup k with
  | none => Except.ok []
  | some (.arr xs) => Except.ok xs
  | some _ => Except.error PyError.typeError

/-- Model of `data.get(k, {}).items()`: absent gives no items, a JSON object gives
its field list, anything else fails when iterated. -/
def getObjD (d : JSON) (k : String) : Except PyError (List (String × JSON)) :=
  match d.lookup k with
  | none => Except.ok []
  | some (.obj fields) => Except.ok fields
  | some _ => Except.error PyError.typeError

/-- Model of `data.get(k, False)` for the `yanked : bool` flag. -/
def getBoolD (d : JSON) (k : String) : Bool :=
  match d.lookup k with
  | some (.bool b) => b
  | _ => false

/-- Effectful map over a list, in order, stopping at the first failure
(the loop underlying every comprehension in `models.py`). -/
def mapME {m : Type → Type} [Monad m] {α β : Type} (f : α → m β) : List α → m (List β)
  | [] => pure []
  | a :: as => do
    let b ← f a
    let bs ← mapME f as
    pure (b :: bs)

/-- A JSON array of strings, as consumed by `tuple(...)` over `classifiers`,
`aliases`, `fixed_in`, `requires_dist`, `provides_extra`. -/
def asStrList (xs : List JSON) : Except PyError (List String) :=
  mapME JSON.asStr xs

/-- Model of `data.get(k)` for a `dict[str, str] | None` field (`project_urls`). -/
def getOptStrMap (d : JSON) (k : String) : Except PyError (Option (List (String × String))) :=
  match d.lookup k with
  | some (.obj fields) =>
    (mapME (fun (p : String × JSON) => p.2.asStr.map (fun s => (p.1, s))) fields).map some
  | some (.null) => Except.ok none
  | none => Except.ok none
  | some _ => Except.error PyError.typeError

/-! ## `models.py`: `Digests` -/

/-- Model of `Digests` (`models.py`): file digest hashes, all typed `str | None`. -/
structure Digests where
  md5 : Option String
  sha256 : Option String
  blake2b_256 : Option String
deriving Repr, DecidableEq

/-- Model of `Digests.from_dict`: every hash is read with `data.get(...)`, so a
missing entry becomes `None`.  This never fails. -/
def Digests.from_dict (data : JSON) : Digests :=
  { md5 := getOptStr data "md5"
    sha256 := getOptStr data "sha256"
    blake2b_256 := getOptStr data "blake2b_256" }

/-! ## `models.py`: `ReleaseFile` -/

/-- Model of `ReleaseFile` (`models.py`): one downloadable file for a release.
`upload_time` keeps the ISO-8601 text after the `replace("Z", "+00:00")`
normalization; `datetime.fromisoformat` itself is outside the repository. -/
structure ReleaseFile where
  filename : String
  url : String
  size : Int
  packagetype : String
  python_version : String
  requires_python : Option String
  upload_time : String
  digests : Digests
  yanked : Bool
  yanked_reason : Option String
deriving Repr, DecidableEq

/-- Model of `upload_time_iso_8601.replace("Z", "+00:00")`: the pattern is the
single character `Z`, so `str.replace` is per-character substitution. -/
def replaceZ (s : String) : String :=
  String.mk (s.toList.foldr
    (fun c acc => (if c = 'Z' then ['+', '0', '0', ':', '0', '0'] else [c]) ++ acc) [])

/-- Model of `ReleaseFile.from_dict`: `filename`, `url`, `size`, `packagetype`,
`python_version`, `upload_time_iso_8601` and `digests` are required
(`data[...]`); the rest use `data.get(...)` defaults. -/
def ReleaseFile.from_dict (data : JSON) : Except PyError ReleaseFile := do
  let uploadRaw ← (← reqField data "upload_time_iso_8601").asStr
  let filename ← (← reqField data "filename").asStr
  let url ← (← reqField data "url").asStr
  let size ← (← reqField data "size").asInt
  let packagetype ← (← reqField data "packagetype").asStr
  let python_version ← (← reqField data "python_version").asStr
  let digestsField ← reqField data "digests"
  pure
    { filename := filename
      url := url
      size := size
      packagetype := packagetype
      python_version := python_version
      requires_python := getOptStr data "requires_python"
      upload_time := replaceZ uploadRaw
      digests := Digests.from_dict digestsField
      yanked := getBoolD data "yanked"
      yanked_reason := getOptStr data "yanked_reason" }

/-! ## `models.py`: `Vulnerability` -/

/-- Model of `Vulnerability` (`models.py`). -/
structure Vulnerability where
  id : String
  source : String
  link : String
  aliases : List String
  details : String
  summary : Option String
  fixed_in : List String
  withdrawn : Option String
deriving Repr, DecidableEq

/-- Model of `Vulnerability.from_dict`: `id`, `source`, `link`, `details` required;
`aliases` and `fixed_in` default to empty; `summary`/`withdrawn` optional. -/
def Vulnerability.from_dict (data : JSON) : Except PyError Vulnerability := do
  let id ← (← reqField data "id").asStr
  let source ← (← reqField data "source").asStr
  let link ← (← reqField data "link").asStr
  let aliases ← asStrList (← getListD data "aliases")
  let details ← (← reqField data "details").asStr
  let fixed_in ← asStrList (← getListD data "fixed_in")
  pure
    { id := id
      source := source
      link := link
      aliases := aliases
      details := details
      summary := getOptStr data "summary"
      fixed_in := fixed_in
      withdrawn := getOptStr data "withdrawn" }

/-! ## The version library (external) -/

/-- Modelled from the spec: `packaging.version.Version` is an external
library, not part of this repository's sources.  Per the spec, a version is
parsed from "the standard public versioning grammar (release segments,
pre-release/dev/post suffixes, local version segments)" and supports "total
ordering and a prerelease predicate".  The model keeps release segments and
an optional `a`-style pre-release number, enough for every claim. -/
structure Version where
  release : List Nat
  pre : Option Nat
deriving Repr, DecidableEq

/-- Modelled from the spec: the prerelease predicate of the external
versioning library (`Version.is_prerelease` in `packaging`). -/
def Version.is_prerelease (v : Version) : Bool :=
  v.pre.isSome

/-- Split a character list at every occurrence of `sep` (the list analogue
of `str.split`). -/
def splitOnChar (sep : Char) : List Char → List (List Char)
  | [] => [[]]
  | c :: cs =>
    if c = sep then [] :: splitOnChar sep cs
    else
      match splitOnChar sep cs with
      | [] => [[c]]
      | r :: rs => (c :: r) :: rs

/-- Decimal digit test on a character. -/
def isDigitChar (c : Char) : Bool :=
  48 ≤ c.toNat && c.toNat ≤ 57

/-- A non-empty all-digit character list, as a number. -/
def digitsToNat (l : List Char) : Option Nat :=
  if l = [] then none
  else l.foldlM (fun acc c => if isDigitChar c then some (acc * 10 + (c.toNat - 48)) else none) 0

/-- Dotted release segments, e.g. `"1.0.0" ↦ [1, 0, 0]`. -/
def parseReleaseSegments (l : List Char) : Option (List Nat) :=
  mapME digitsToNat (splitOnChar '.' l)

/-- Modelled from the spec: parsing a version string with the external
versioning library; `none` models `packaging.version.InvalidVersion`.
Handles `R` and `RaN` shapes (release segments, optional pre-release). -/
def Version.parse (s : String) : Option Version :=
  match splitOnChar 'a' s.toList with
  | [rel] => (parseReleaseSegments rel).map (fun r => { release := r, pre := none })
  | [rel, p] => do
    let r ← parseReleaseSegments rel
    let n ← digitsToNat p
    pure { release := r, pre := some n }
  | _ => none

/-- Lexicographic order on release segment lists (a proper prefix sorts
first, mirroring how the external library orders padded releases). -/
def lexLe : List Nat → List Nat → Bool
  | [], _ => true
  | _ :: _, [] => false
  | a :: as, b :: bs => if a < b then true else if b < a then false else lexLe as bs

/-- Order on the pre-release component: a pre-release sorts before the
corresponding final release (`none`). -/
def preLe : Option Nat → Option Nat → Bool
  | none, none => true
  | none, some _ => false
  | some _, none => true
  | some a, some b => a ≤ b

/-- Modelled from the spec: the total order of the external versioning
library (release segments first, then pre-release status). -/
def Version.le (v w : Version) : Bool :=
  if v.release = w.release then preLe v.pre w.pre else lexLe v.release w.release

/-! ## `models.py`: `PackageInfo` -/

/-- Model of `PackageInfo` (`models.py`): core package metadata. -/
structure PackageInfo where
  name : String
  version : String
  summary : Option String
  description : Option String
  description_content_type : Option String
  author : Option String
  author_email : Option String
  maintainer : Option String
  maintainer_email : Option String
  license : Option String
  license_expression : Option String
  keywords : Option String
  classifiers : List String
  requires_python : Option String
  requires_dist : Option (List String)
  provides_extra : Option (List String)
  project_urls : Option (List (String × String))
  home_page : Option String
  download_url : Option String
  docs_url : Option String
  bugtrack_url : Option String
  package_url : String
  release_url : String
  platform : Option String
  yanked : Bool
  yanked_reason : Option String
deriving Repr, DecidableEq

/-- Model of `tuple(xs) if xs else None`: an absent or empty list is collapsed to
`None` (`requires_dist` / `provides_extra` in `PackageInfo.from_dict`). -/
def tupleIfTruthy (d : JSON) (k : String) : Except PyError (Option (List String)) :=
  match d.lookup k with
  | none => Except.ok none
  | some (.null) => Except.ok none
  | some (.arr xs) =>
    if xs.isEmpty then Except.ok none else (asStrList xs).map some
  | some _ => Except.error PyError.typeError

/-- Model of `PackageInfo.from_dict`: `name`, `version`, `package_url` and
`release_url` are required (`data[...]` raises `KeyError` when absent);
everything else uses `data.get(...)` with the source's defaults. -/
def PackageInfo.from_dict (data : JSON) : Except PyError PackageInfo := do
  let requires_dist ← tupleIfTruthy data "requires_dist"
  let provides_extra ← tupleIfTruthy data "provides_extra"
  let name ← (← reqField data "name").asStr
  let version ← (← reqField data "version").asStr
  let classifiers ← asStrList (← getListD data "classifiers")
  let project_urls ← getOptStrMap data "project_urls"
  let package_url ← (← reqField data "package_url").asStr
  let release_url ← (← reqField data "release_url").asStr
  pure
    { name := name
      version := version
      summary := getOptStr data "summary"
      description := getOptStr data "description"
      description_content_type := getOptStr data "description_content_type"
      author := getOptStr data "author"
      author_email := getOptStr data "author_email"
      maintainer := getOptStr data "maintainer"
      maintainer_email := getOptStr data "maintainer_email"
      license := getOptStr data "license"
      license_expression := getOptStr data "license_expression"
      keywords := getOptStr data "keywords"
      classifiers := classifiers
      requires_python := getOptStr data "requires_python"
      requires_dist := requires_dist
      provides_extra := provides_extra
      project_urls := project_urls
      home_page := getOptStr data "home_page"
      download_url := getOptStr data "download_url"
      docs_url := getOptStr data "docs_url"
      bugtrack_url := getOptStr data "bugtrack_url"
      package_url := package_url
      release_url := release_url
      platform := getOptStr data "platform"
      yanked := getBoolD data "yanked"
      yanked_reason := getOptStr data "yanked_reason" }

/-! ## `models.py`: `PackageMetadata` and `ReleaseMetadata` -/

/-- Model of `PackageMetadata` (`models.py`): full package metadata.  The Python
`dict[Version, tuple[ReleaseFile, ...]]` is modelled as an association
list whose keys are parsed versions. -/
structure PackageMetadata where
  info : PackageInfo
  releases : List (Version × List ReleaseFile)
  urls : List ReleaseFile
  last_serial : Int
  vulnerabilities : List Vulnerability
deriving Repr, DecidableEq

/-- Model of `Version(version)` on a raw key: `InvalidVersion` when unparseable. -/
def parseVersionKey (s : String) : Except PyError Version :=
  match Version.parse s with
  | some v => Except.ok v
  | none => Except.error (PyError.invalidVersion s)

/-- Model of `tuple(ReleaseFile.from_dict(f) for f in files)` on a raw value. -/
def parseFilesValue (j : JSON) : Except PyError (List ReleaseFile) :=
  match j with
  | .arr xs => mapME ReleaseFile.from_dict xs
  | _ => Except.error PyError.typeError

def parseReleaseItem (p : String × JSON) : Except PyError (Version × List ReleaseFile) := do
  let v ← parseVersionKey p.1
  let fs ← parseFilesValue p.2
  pure (v, fs)

def parseReleases (raw : List (String × JSON)) :
    Except PyError (List (Version × List ReleaseFile)) :=
  mapME parseReleaseItem raw

/-- Model of `PackageMetadata.from_dict`: the `releases` comprehension is evaluated
first, then `info`, `urls`, `last_serial` (required) and
`vulnerabilities`, in source order. -/
def PackageMetadata.from_dict (data : JSON) : Except PyError PackageMetadata := do
  let rawReleases ← getObjD data "releases"
  let releases ← parseReleases rawReleases
  let info ← PackageInfo.from_dict (← reqField data "info")
  let urls ← mapME ReleaseFile.from_dict (← getListD data "urls")
  let last_serial ← (← reqField data "last_serial").asInt
  let vulnerabilities ← mapME Vulnerability.from_dict (← getListD data "vulnerabilities")
  pure
    { info := info
      releases := releases
      urls := urls
      last_serial := last_serial
      vulnerabilities := vulnerabilities }

/-- Model of `PackageMetadata.versions`: `sorted(self.releases)` sorts the dict keys
with the external library's total order. -/
def PackageMetadata.versions (m : PackageMetadata) : List Version :=
  (m.releases.map Prod.fst).mergeSort Version.le

/-- Model of `PackageMetadata.latest_version`: last stable version if any, else last
version overall.  `stable[-1]` / `versions[-1]` on an empty list raises
`IndexError` in Python; the model returns `none` there. -/
def PackageMetadata.latest_version (m : PackageMetadata) : Option Version :=
  let versions := m.versions
  let stable := versions.filter (fun v => !v.is_prerelease)
  match stable.getLast? with
  | some v => some v
  | none => versions.getLast?

/-- Model of `PackageMetadata.get_files` for an already-parsed version. -/
def PackageMetadata.get_files (m : PackageMetadata) (version : Version) : List ReleaseFile :=
  match List.lookup version m.releases with
  | some fs => fs
  | none => []

/-- Model of `ReleaseMetadata` (`models.py`): metadata for one release. -/
structure ReleaseMetadata where
  info : PackageInfo
  urls : List ReleaseFile
  last_serial : Int
  vulnerabilities : List Vulnerability
deriving Repr, DecidableEq

/-- Model of `ReleaseMetadata.from_dict`. -/
def ReleaseMetadata.from_dict (data : JSON) : Except PyError ReleaseMetadata := do
  let info ← PackageInfo.from_dict (← reqField data "info")
  let urls ← mapME ReleaseFile.from_dict (← getListD data "urls")
  let last_serial ← (← reqField data "last_serial").asInt
  let vulnerabilities ← mapME Vulnerability.from_dict (← getListD data "vulnerabilities")
  pure
    { info := info
      urls := urls
      last_serial := last_serial
      vulnerabilities := vulnerabilities }

/-! ## `_cache.py`: `TTLCache`

`time.monotonic()` is passed in explicitly as a rational `now`; the backing
`dict` is an association list in which `set` replaces any previous binding.
-/

/-- Model of `TTLCache` (`_cache.py`). -/
structure TTLCache (α : Type) where
  ttl : Nat
  cache : List (String × (ℚ × α))
deriving Repr, DecidableEq

/-- Model of `TTLCache.get`: a hit whose expiry has passed is deleted and reported
as a miss; the (possibly updated) cache is returned alongside. -/
def TTLCache.get {α : Type} (c : TTLCache α) (now : ℚ) (key : String) :
    Option α × TTLCache α :=
  match List.lookup key c.cache with
  | none => (none, c)
  | some (expires_at, value) =>
    if now > expires_at then
      (none, { c with cache := c.cache.filter (fun kv => kv.1 ≠ key) })
    else
      (some value, c)

/-- Model of `TTLCache.set`: store with absolute expiry `now + ttl` (dict assignment
replaces any previous binding for the key). -/
def TTLCache.set {α : Type} (c : TTLCache α) (now : ℚ) (key : String) (value : α) :
    TTLCache α :=
  { c with cache := (key, ((now + (c.ttl : ℚ)), value)) :: c.cache.filter (fun kv => kv.1 ≠ key) }

/-- Model of `TTLCache.clear`. -/
def TTLCache.clear {α : Type} (c : TTLCache α) : TTLCache α :=
  { c with cache := [] }

/-! ## `client.py`: HTTP layer -/

/-- One HTTP response: status, the `Retry-After` header (if present) and
the decoded JSON body. -/
structure HTTPResponse where
  status : Nat
  retryAfter : Option String
  body : JSON

/-- What one `session.get(url)` produces: a response, or a transport-level
`aiohttp.ClientError`. -/
inductive HTTPResult where
  | response (r : HTTPResponse)
  | clientError

/-- Python's `int(str)`: optional surrounding whitespace and sign followed
by decimal digits, else `ValueError` (modelled as `none`). -/
def pyInt (s : String) : Option Int :=
  let l := (((s.toList.dropWhile (fun c => c = ' ')).reverse.dropWhile (fun c => c = ' ')).reverse)
  match l with
  | '-' :: rest => (digitsToNat rest).map (fun n => -(n : Int))
  | '+' :: rest => (digitsToNat rest).map (fun n => (n : Int))
  | _ => (digitsToNat l).map (fun n => (n : Int))

/-- The `match response.status` dispatch inside `PyPIJson._request`
(`client.py` lines 58-73), as a pure status → outcome function:
200 returns the body; 404 raises `PackageNotFoundError(url)`;
429 raises `RateLimitError(int(retry_after) if retry_after else None)`
(where `int` on a non-integer header raises `ValueError`);
status ≥ 500 raises `PyPIServerError(status)`; any other status raises
`PyPIServerError(status, "Unexpected status: ...")`. -/
def dispatch (url : String) (r : HTTPResponse) : Except PyError JSON :=
  if r.status = 200 then Except.ok r.body
  else if r.status = 404 then Except.error (PyError.packageNotFound url none)
  else if r.status = 429 then
    match r.retryAfter with
    | some s =>
      if s ≠ "" then
        match pyInt s with
        | some n => Except.error (PyError.rateLimited (some n))
        | none => Except.error (PyError.valueError s)
      else Except.error (PyError.rateLimited none)
    | none => Except.error (PyError.rateLimited none)
  else if r.status ≥ 500 then Except.error (PyError.serverError r.status none)
  else Except.error (PyError.serverError r.status (some ("Unexpected status: " ++ toString r.status)))

/-- One iteration's `try` body: issue the GET and dispatch on the result.
A transport failure is `aiohttp.ClientError`. -/
def attemptResult (url : String) (r : HTTPResult) : Except PyError JSON :=
  match r with
  | .response resp => dispatch url resp
  | .clientError => Except.error PyError.clientError

/-- Whether `except (aiohttp.ClientError, PyPIServerError, RateLimitError)`
catches the exception.  `PackageNotFoundError` and built-in exceptions such
as `ValueError` are not in the tuple and propagate immediately (the
`isinstance(e, PackageNotFoundError)` re-raise inside the handler is
unreachable). -/
def caughtByRetryHandler : PyError → Bool
  | .clientError => true
  | .serverError _ _ => true
  | .rateLimited _ => true
  | _ => false

/-- The observable result of a `_request` call: its outcome, how many HTTP
GETs were issued, and the backoff delays passed to `asyncio.sleep`. -/
structure RequestTrace where
  outcome : Except PyError JSON
  attempts : Nat
  sleeps : List ℚ

/-- The `for attempt in range(self._max_retries)` loop of `PyPIJson._request`.
`fuel` counts the iterations that remain (`_request` starts it at
`max_retries`, and the recursion keeps `fuel = max_retries - attempt`);
`lastExc` is the `last_exception` variable.  On a caught exception the loop
sleeps `backoff * 2 ^ attempt` unless this was the final attempt; when the
loop ends it re-raises `last_exception`, or raises `RuntimeError` if there
is none. -/
def requestLoop (backoff : ℚ) (maxRetries : Nat) (url : String)
    (responses : Nat → HTTPResult) :
    Nat → Nat → Option PyError → List ℚ → RequestTrace
  | attempt, 0, lastExc, sleeps =>
    match lastExc with
    | some e => { outcome := Except.error e, attempts := attempt, sleeps := sleeps }
    | none =>
      { outcome := Except.error (PyError.runtimeError "Request failed with no exception")
        attempts := attempt, sleeps := sleeps }
  | attempt, fuel + 1, lastExc, sleeps =>
    match attemptResult url (responses attempt) with
    | Except.ok body => { outcome := Except.ok body, attempts := attempt + 1, sleeps := sleeps }
    | Except.error e =>
      if caughtByRetryHandler e then
        if attempt < maxRetries - 1 then
          requestLoop backoff maxRetries url responses (attempt + 1) fuel (some e)
            (sleeps ++ [backoff * 2 ^ attempt])
        else
          requestLoop backoff maxRetries url responses (attempt + 1) fuel (some e) sleeps
      else
        { outcome := Except.error e, attempts := attempt + 1, sleeps := sleeps }

/-- Client construction parameters (`PyPIJson.__init__`), with `base_url`
already `rstrip("/")`-ed by `initBaseUrl`. -/
structure ClientConfig where
  base_url : String
  cache_ttl : Option Nat
  max_retries : Nat
  retry_backoff : ℚ

/-- Model of `base_url.rstrip("/")` in `PyPIJson.__init__`. -/
def initBaseUrl (s : String) : String :=
  s.dropRightWhile (fun c => c = '/')

/-- A value stored in the shared cache (`self._cache` holds both
`PackageMetadata` and `ReleaseMetadata` objects, typed `Any`). -/
inductive Cached where
  | pkg (m : PackageMetadata)
  | rel (r : ReleaseMetadata)
deriving Repr, DecidableEq

/-- Model of `TTLCache(cache_ttl) if cache_ttl else None`: `None` and `0` are falsy,
so they disable caching. -/
def initCache (cache_ttl : Option Nat) : Option (TTLCache Cached) :=
  match cache_ttl with
  | some ttl => if ttl ≠ 0 then some { ttl := ttl, cache := [] } else none
  | none => none

/-- The mutable client state: whether the `aiohttp` session is active
(`self._session is not None`) and the cache (`self._cache`). -/
structure ClientState where
  session : Bool
  cache : Option (TTLCache Cached)

/-- Model of `PyPIJson._get_cache_key`: `if version:` treats `None` and `""` as
"no version". -/
def _get_cache_key (base_url package : String) (version : Option String) : String :=
  match version with
  | some v =>
    if v ≠ "" then base_url ++ ":" ++ package ++ ":" ++ v
    else base_url ++ ":" ++ package
  | none => base_url ++ ":" ++ package

/-- Model of `PyPIJson._request`: raise `RuntimeError` when the session was never
acquired, otherwise run the retry loop from attempt 0 with no recorded
exception.  The `attempts` of an exhausted loop equal `max_retries`. -/
def _request (st : ClientState) (cfg : ClientConfig) (url : String)
    (responses : Nat → HTTPResult) : RequestTrace :=
  if st.session then
    requestLoop cfg.retry_backoff cfg.max_retries url responses 0 cfg.max_retries none []
  else
    { outcome := Except.error (PyError.runtimeError "Client not initialized")
      attempts := 0, sleeps := [] }

/-! ## `client.py`: public operations -/

/-- The observable result of one `get_package` / `get_release` call: its
outcome (the returned object or the raised exception), the number of HTTP
GETs issued, the backoff delays slept, and the client state afterwards.
The success value has type `Cached` because a cache hit returns whatever
object is stored under the key, without any runtime type check. -/
structure CallResult where
  result : Except PyError Cached
  httpAttempts : Nat
  sleeps : List ℚ
  state : ClientState

/-- The cache lookup (`client.py` lines 102-105 / 133-136): the state is
returned alongside because an expired hit deletes its entry. -/
def cacheLookup (st : ClientState) (now : ℚ) (cache_key : String) :
    Option Cached × ClientState :=
  match st.cache with
  | some c =>
    let (cached, c') := c.get now cache_key
    (cached, { st with cache := some c' })
  | none => (none, st)

/-- Storing a freshly parsed result (`client.py` lines 111-112 / 142-143). -/
def cacheStore (st : ClientState) (now : ℚ) (cache_key : String) (v : Cached) :
    ClientState :=
  match st.cache with
  | some c => { st with cache := some (c.set now cache_key v) }
  | none => st

/-- The cache-miss path of `get_package`: fetch through `_request`, parse
with `PackageMetadata.from_dict`, store on success and return. -/
def get_package_fetch (cfg : ClientConfig) (st' : ClientState) (now : ℚ)
    (cache_key url : String) (responses : Nat → HTTPResult) : CallResult :=
  let t := _request st' cfg url responses
  match t.outcome with
  | Except.error e =>
    { result := Except.error e, httpAttempts := t.attempts, sleeps := t.sleeps, state := st' }
  | Except.ok data =>
    match PackageMetadata.from_dict data with
    | Except.error e =>
      { result := Except.error e, httpAttempts := t.attempts, sleeps := t.sleeps, state := st' }
    | Except.ok result =>
      { result := Except.ok (Cached.pkg result), httpAttempts := t.attempts
        sleeps := t.sleeps, state := cacheStore st' now cache_key (Cached.pkg result) }

/-- Model of `PyPIJson.get_package`: check the cache (a hit returns the cached
object directly), otherwise run the fetch path.  `now` is the monotonic
clock during the call. -/
def get_package (cfg : ClientConfig) (st : ClientState) (now : ℚ) (package : String)
    (responses : Nat → HTTPResult) : CallResult :=
  let cache_key := _get_cache_key cfg.base_url package none
  let lookupRes := cacheLookup st now cache_key
  match lookupRes.1 with
  | some v => { result := Except.ok v, httpAttempts := 0, sleeps := [], state := lookupRes.2 }
  | none =>
    get_package_fetch cfg lookupRes.2 now cache_key
      (cfg.base_url ++ "/pypi/" ++ package ++ "/json") responses

/-- The cache-miss path of `get_release`. -/
def get_release_fetch (cfg : ClientConfig) (st' : ClientState) (now : ℚ)
    (cache_key url : String) (responses : Nat → HTTPResult) : CallResult :=
  let t := _request st' cfg url responses
  match t.outcome with
  | Except.error e =>
    { result := Except.error e, httpAttempts := t.attempts, sleeps := t.sleeps, state := st' }
  | Except.ok data =>
    match ReleaseMetadata.from_dict data with
    | Except.error e =>
      { result := Except.error e, httpAttempts := t.attempts, sleeps := t.sleeps, state := st' }
    | Except.ok result =>
      { result := Except.ok (Cached.rel result), httpAttempts := t.attempts
        sleeps := t.sleeps, state := cacheStore st' now cache_key (Cached.rel result) }

/-- Model of `PyPIJson.get_release`: as `get_package`, with the versioned cache key,
the `{base}/pypi/{package}/{version}/json` URL and
`ReleaseMetadata.from_dict`. -/
def get_release (cfg : ClientConfig) (st : ClientState) (now : ℚ)
    (package version : String) (responses : Nat → HTTPResult) : CallResult :=
  let cache_key := _get_cache_key cfg.base_url package (some version)
  let lookupRes := cacheLookup st now cache_key
  match lookupRes.1 with
  | some v => { result := Except.ok v, httpAttempts := 0, sleeps := [], state := lookupRes.2 }
  | none =>
    get_release_fetch cfg lookupRes.2 now cache_key
      (cfg.base_url ++ "/pypi/" ++ package ++ "/" ++ version ++ "/json") responses

/-- Model of `PyPIJson.clear_cache`: drop every entry; no-op when caching is off. -/
def clear_cache (st : ClientState) : ClientState :=
  match st.cache with
  | some c => { st with cache := some c.clear }
  | none => st

/-! ## Error classification predicates -/

/-- The errors `models.py` parsing can raise: `KeyError`, `TypeError` and
`InvalidVersion` — never one of the HTTP-layer exceptions. -/
def parseErrorKind : PyError → Bool
  | .keyError _ => true
  | .typeError => true
  | .invalidVersion _ => true
  | _ => false

/-- Every error of the computation is a parse-kind error. -/
def AllErrorsParse {α : Type} (x : Except PyError α) : Prop :=
  ∀ e, x = Except.error e → parseErrorKind e = true

/-- The library's own HTTP-layer error conditions together with the
transport failure: exactly the retryable/terminal conditions of
`client.py`, excluding Python built-ins. -/
def httpErrorKind : PyError → Bool
  | .packageNotFound _ _ => true
  | .rateLimited _ => true
  | .serverError _ _ => true
  | .clientError => true
  | _ => false

/-- The error conditions named by the specification's taxonomy as the
code realizes them: `PackageNotFoundError`, `RateLimitError`,
`PyPIServerError`, and `RuntimeError` for the usage/invariant errors.  The
spec's `MalformedResponse` has no counterpart anywhere in the code, and
built-in `ValueError`/`KeyError`/`TypeError`/`InvalidVersion` and the
transport `ClientError` are outside the taxonomy. -/
def claimedCondition : PyError → Bool
  | .packageNotFound _ _ => true
  | .rateLimited _ => true
  | .serverError _ _ => true
  | .runtimeError _ => true
  | _ => false

/-! ## Concrete inputs used to exercise the model -/

/-- A minimal valid `info` object (only the required fields). -/
def sampleInfoJSON : JSON :=
  JSON.obj [("name", JSON.str "requests"), ("version", JSON.str "2.31.0"),
    ("package_url", JSON.str "https://pypi.org/project/requests/"),
    ("release_url", JSON.str "https://pypi.org/project/requests/2.31.0/")]

/-- A minimal valid full-package body. -/
def sampleBody : JSON :=
  JSON.obj [("info", sampleInfoJSON), ("last_serial", JSON.num 12345678)]

/-- What `PackageInfo.from_dict` makes of `sampleInfoJSON`. -/
def sampleInfo : PackageInfo :=
  { name := "requests", version := "2.31.0", summary := none, description := none
    description_content_type := none, author := none, author_email := none
    maintainer := none, maintainer_email := none, license := none
    license_expression := none, keywords := none, classifiers := []
    requires_python := none, requires_dist := none, provides_extra := none
    project_urls := none, home_page := none, download_url := none, docs_url := none
    bugtrack_url := none, package_url := "https://pypi.org/project/requests/"
    release_url := "https://pypi.org/project/requests/2.31.0/", platform := none
    yanked := false, yanked_reason := none }

/-- What `PackageMetadata.from_dict` makes of `sampleBody`. -/
def sampleMeta : PackageMetadata :=
  { info := sampleInfo, releases := [], urls := [], last_serial := 12345678
    vulnerabilities := [] }

/-- A one-release metadata value (for exercising `versions`). -/
def oneVersionMeta : PackageMetadata :=
  { info := sampleInfo, releases := [({ release := [1, 0, 0], pre := none }, [])]
    urls := [], last_serial := 1, vulnerabilities := [] }

/-- A body whose `releases` object has an unparseable version key. -/
def badVersionBody : JSON :=
  JSON.obj [("releases", JSON.obj [("x", JSON.arr [])])]

/-- An `info` object missing the required `name`. -/
def infoMissingName : JSON :=
  JSON.obj [("version", JSON.str "1.0.0")]

/-- A body that fails to parse (no `info` at all). -/
def badBody : JSON :=
  JSON.obj []

/-- A release-file object whose `digests` object carries no hash at all. -/
def fileNoHashes : JSON :=
  JSON.obj [("filename", JSON.str "pkg-1.0.0.tar.gz"), ("url", JSON.str "u"),
    ("size", JSON.num 1), ("packagetype", JSON.str "sdist"),
    ("python_version", JSON.str "source"),
    ("upload_time_iso_8601", JSON.str "2024-01-01T00:00:00Z"),
    ("digests", JSON.obj [])]

/-- What `ReleaseFile.from_dict` makes of `fileNoHashes`. -/
def fileNoHashesParsed : ReleaseFile :=
  { filename := "pkg-1.0.0.tar.gz", url := "u", size := 1, packagetype := "sdist"
    python_version := "source", requires_python := none
    upload_time := "2024-01-01T00:00:00+00:00"
    digests := { md5 := none, sha256 := none, blake2b_256 := none }
    yanked := false, yanked_reason := none }

/-- A client configuration with caching off. -/
def cfg3 : ClientConfig :=
  { base_url := "https://pypi.org", cache_ttl := none, max_retries := 3, retry_backoff := 1 }

/-- A client configuration with a 300-second cache. -/
def cfgCache : ClientConfig :=
  { base_url := "https://pypi.org", cache_ttl := some 300, max_retries := 3, retry_backoff := 1 }

/-- An active session with caching off. -/
def stOpen : ClientState :=
  { session := true, cache := none }

/-- Transport scripts: every attempt gets the same response. -/
def resp500 : Nat → HTTPResult :=
  fun _ => HTTPResult.response { status := 500, retryAfter := none, body := JSON.null }

def resp404 : Nat → HTTPResult :=
  fun _ => HTTPResult.response { status := 404, retryAfter := none, body := JSON.null }

def resp200 : Nat → HTTPResult :=
  fun _ => HTTPResult.response { status := 200, retryAfter := none, body := sampleBody }

def resp200bad : Nat → HTTPResult :=
  fun _ => HTTPResult.response { status := 200, retryAfter := none, body := badBody }

def resp429bad : Nat → HTTPResult :=
  fun _ => HTTPResult.response { status := 429, retryAfter := some "abc", body := JSON.null }

/-! ## Order properties of the modelled version order -/

theorem lexLe_refl (l : List Nat) : lexLe l l = true := by
  induction l with
  | nil => rfl
  | cons a as ih => simp [lexLe, ih]

theorem lexLe_total (l₁ l₂ : List Nat) : lexLe l₁ l₂ = true ∨ lexLe l₂ l₁ = true := by
  induction l₁ generalizing l₂ with
  | nil => exact Or.inl rfl
  | cons a as ih =>
    cases l₂ with
    | nil => exact Or.inr rfl
    | cons b bs =>
      rcases Nat.lt_trichotomy a b with h | h | h
      · exact Or.inl (by simp [lexLe, h])
      · subst h
        rcases ih bs with h₂ | h₂
        · exact Or.inl (by simp [lexLe, h₂])
        · exact Or.inr (by simp [lexLe, h₂])
      · exact Or.inr (by simp [lexLe, h])

theorem lexLe_antisymm {l₁ l₂ : List Nat}
    (h₁ : lexLe l₁ l₂ = true) (h₂ : lexLe l₂ l₁ = true) : l₁ = l₂ := by
  induction l₁ generalizing l₂ with
  | nil =>
    cases l₂ with
    | nil => rfl
    | cons b bs => simp [lexLe] at h₂
  | cons a as ih =>
    cases l₂ with
    | nil => simp [lexLe] at h₁
    | cons b bs =>
      by_cases hab : a < b
      · simp [lexLe, hab, Nat.lt_asymm hab] at h₂
      · by_cases hba : b < a
        · simp [lexLe, hba, Nat.lt_asymm hba] at h₁
        · have hEq : a = b := Nat.le_antisymm (Nat.le_of_not_lt hba) (Nat.le_of_not_lt hab)
          subst hEq
          simp only [lexLe, if_neg hab, if_neg hba] at h₁ h₂
          rw [ih h₁ h₂]

theorem lexLe_trans {l₁ l₂ l₃ : List Nat}
    (h₁ : lexLe l₁ l₂ = true) (h₂ : lexLe l₂ l₃ = true) : lexLe l₁ l₃ = true := by
  induction l₁ generalizing l₂ l₃ with
  | nil => rfl
  | cons a as ih =>
    cases l₂ with
    | nil => simp [lexLe] at h₁
    | cons b bs =>
      cases l₃ with
      | nil => simp [lexLe] at h₂
      | cons c cs =>
        by_cases hab : a < b
        · by_cases hbc : b < c
          · simp [lexLe, Nat.lt_trans hab hbc]
          · by_cases hcb : c < b
            · simp [lexLe, hcb, Nat.lt_asymm hcb] at h₂
            · have hbceq : b = c := Nat.le_antisymm (Nat.le_of_not_lt hcb) (Nat.le_of_not_lt hbc)
              subst hbceq
              simp [lexLe, hab]
        · by_cases hba : b < a
          · simp [lexLe, hba, Nat.lt_asymm hba] at h₁
          · have habeq : a = b := Nat.le_antisymm (Nat.le_of_not_lt hba) (Nat.le_of_not_lt hab)
            subst habeq
            simp only [lexLe, if_neg hab, if_neg hba] at h₁
            by_cases hac : a < c
            · simp [lexLe, hac]
            · by_cases hca : c < a
              · simp [lexLe, hca, Nat.lt_asymm hca] at h₂
              · simp only [lexLe, if_neg hac, if_neg hca] at h₂ ⊢
                exact ih h₁ h₂

theorem preLe_refl (p : Option Nat) : preLe p p = true := by
  cases p <;> simp [preLe]

theorem preLe_total (p q : Option Nat) : preLe p q = true ∨ preLe q p = true := by
  cases p <;> cases q <;> simp [preLe] <;> omega

theorem preLe_trans {p q r : Option Nat}
    (h₁ : preLe p q = true) (h₂ : preLe q r = true) : preLe p r = true := by
  cases p <;> cases q <;> cases r <;> simp [preLe] at * <;> omega

theorem Version.le_refl (v : Version) : Version.le v v = true := by
  simp [Version.le, preLe_refl]

theorem Version.le_total (v w : Version) :
    Version.le v w = true ∨ Version.le w v = true := by
  by_cases h : v.release = w.release
  · simp only [Version.le, if_pos h, if_pos h.symm]
    exact preLe_total v.pre w.pre
  · have h' : w.release ≠ v.release := fun hEq => h hEq.symm
    simp only [Version.le, if_neg h, if_neg h']
    exact lexLe_total v.release w.release

theorem Version.le_trans {u v w : Version}
    (h₁ : Version.le u v = true) (h₂ : Version.le v w = true) :
    Version.le u w = true := by
  by_cases huv : u.release = v.release
  · by_cases hvw : v.release = w.release
    · have huw : u.release = w.release := huv.trans hvw
      simp only [Version.le, if_pos huv] at h₁
      simp only [Version.le, if_pos hvw] at h₂
      simp only [Version.le, if_pos huw]
      exact preLe_trans h₁ h₂
    · have huw : u.release ≠ w.release := fun hEq => hvw (huv.symm.trans hEq)
      simp only [Version.le, if_neg hvw] at h₂
      simp only [Version.le, if_neg huw]
      rw [huv]
      exact h₂
  · by_cases hvw : v.release = w.release
    · have huw : u.release ≠ w.release := fun hEq => huv (hEq.trans hvw.symm)
      simp only [Version.le, if_neg huv] at h₁
      simp only [Version.le, if_neg huw]
      rw [← hvw]
      exact h₁
    · simp only [Version.le, if_neg huv] at h₁
      simp only [Version.le, if_neg hvw] at h₂
      by_cases huw : u.release = w.release
      · exact absurd (lexLe_antisymm h₂ (huw ▸ h₁)) hvw
      · simp only [Version.le, if_neg huw]
        exact lexLe_trans h₁ h₂

theorem Version.le_total_bool (v w : Version) :
    (Version.le v w || Version.le w v) = true := by
  rcases Version.le_total v w with h | h <;> simp [h]

/-! ## Sortedness facts about `versions` and `latest_version` -/

theorem pairwise_le_getLast {l : List Version}
    (hp : l.Pairwise (fun a b => Version.le a b = true))
    {x : Version} (hx : l.getLast? = some x) :
    ∀ v ∈ l, Version.le v x = true := by
  induction l with
  | nil => simp at hx
  | cons a t ih =>
    cases t with
    | nil =>
      intro v hv
      have hax : a = x := by simpa using hx
      have hva : v = a := by simpa using hv
      subst hax; subst hva
      exact Version.le_refl v
    | cons b t' =>
      rw [List.getLast?_cons_cons] at hx
      rcases List.pairwise_cons.mp hp with ⟨hhead, htail⟩
      intro v hv
      rcases List.mem_cons.mp hv with hv | hv
      · subst hv
        exact hhead x (List.mem_of_getLast?_eq_some hx)
      · exact ih htail hx v hv

theorem versions_pairwise (m : PackageMetadata) :
    m.versions.Pairwise (fun a b => Version.le a b = true) := by
  have h : (List.mergeSort (m.releases.map Prod.fst) Version.le).Pairwise
      (fun a b => Version.le a b = true) :=
    @List.sorted_mergeSort _ Version.le
      (fun a b c h₁ h₂ => Version.le_trans h₁ h₂)
      Version.le_total_bool
      (m.releases.map Prod.fst)
  exact h

theorem versions_perm (m : PackageMetadata) :
    m.versions.Perm (m.releases.map Prod.fst) :=
  List.mergeSort_perm (m.releases.map Prod.fst) Version.le

theorem versions_eq_nil_iff (m : PackageMetadata) :
    m.versions = [] ↔ m.releases = [] := by
  constructor
  · intro h
    have hlen := congrArg List.length h
    simp only [PackageMetadata.versions, List.length_mergeSort, List.length_map,
      List.length_nil] at hlen
    exact List.length_eq_zero.mp hlen
  · intro h
    simp [PackageMetadata.versions, h]

/-- Claim C10: `latest_version` indexes `versions[-1]` when no stable
version exists, so it is undefined (an `IndexError`, modelled as `none`)
exactly when the `releases` mapping is empty. -/
theorem latest_version_none_iff (m : PackageMetadata) :
    m.latest_version = none ↔ m.releases = [] := by
  rw [← versions_eq_nil_iff]
  unfold PackageMetadata.latest_version
  cases hs : (m.versions.filter (fun v => !v.is_prerelease)).getLast? with
  | some v =>
    simp only [hs]
    constructor
    · intro h; exact absurd h (by simp)
    · intro h
      rw [h] at hs
      simp at hs
  | none =>
    simp only [hs, List.getLast?_eq_none_iff]

/-- Claim C6: for a non-empty `releases` mapping, `versions` lists the
release keys in ascending order, and `latest_version` is the greatest
non-prerelease version, falling back to the greatest version overall when
every version is a prerelease. -/
theorem versions_sorted_and_latest (m : PackageMetadata) (hne : m.releases ≠ []) :
    m.versions.Pairwise (fun a b => Version.le a b = true) ∧
    m.versions.Perm (m.releases.map Prod.fst) ∧
    ∃ l, m.latest_version = some l ∧ l ∈ m.versions ∧
      (m.versions.filter (fun v => !v.is_prerelease) ≠ [] →
        l.is_prerelease = false ∧
        ∀ v ∈ m.versions, v.is_prerelease = false → Version.le v l = true) ∧
      (m.versions.filter (fun v => !v.is_prerelease) = [] →
        ∀ v ∈ m.versions, Version.le v l = true) := by
  refine ⟨versions_pairwise m, versions_perm m, ?_⟩
  have hvne : m.versions ≠ [] := fun h => hne ((versions_eq_nil_iff m).mp h)
  cases hs : (m.versions.filter (fun v => !v.is_prerelease)).getLast? with
  | some l =>
    refine ⟨l, ?_, ?_, ?_, ?_⟩
    · unfold PackageMetadata.latest_version
      simp only [hs]
    · exact List.mem_of_mem_filter (List.mem_of_getLast?_eq_some hs)
    · intro _
      constructor
      · have := List.of_mem_filter (List.mem_of_getLast?_eq_some hs)
        simpa using this
      · intro v hv hvs
        have hmem : v ∈ m.versions.filter (fun w => !w.is_prerelease) :=
          List.mem_filter.mpr ⟨hv, by simp [hvs]⟩
        exact pairwise_le_getLast ((versions_pairwise m).filter _) hs v hmem
    · intro habs
      rw [habs] at hs
      simp at hs
  | none =>
    have hstable : m.versions.filter (fun v => !v.is_prerelease) = [] :=
      List.getLast?_eq_none_iff.mp hs
    obtain ⟨l, hl⟩ : ∃ l, m.versions.getLast? = some l := by
      cases hgl : m.versions.getLast? with
      | some l => exact ⟨l, rfl⟩
      | none => exact absurd (List.getLast?_eq_none_iff.mp hgl) hvne
    refine ⟨l, ?_, List.mem_of_getLast?_eq_some hl, ?_, ?_⟩
    · unfold PackageMetadata.latest_version
      simp only [hs, hl]
    · intro habs
      exact absurd hstable habs
    · intro _
      exact pairwise_le_getLast (versions_pairwise m) hl

/-! ## Inversion helpers for `Except` computations -/

theorem exceptBind_ok {α β : Type} {x : Except PyError α} {f : α → Except PyError β} {b : β}
    (h : (x >>= f) = Except.ok b) : ∃ a, x = Except.ok a ∧ f a = Except.ok b := by
  cases x with
  | ok a => exact ⟨a, rfl, h⟩
  | error e => simp [Bind.bind, Except.bind] at h

theorem exceptBind_error {α β : Type} {x : Except PyError α} {f : α → Except PyError β}
    {e : PyError} (h : (x >>= f) = Except.error e) :
    x = Except.error e ∨ ∃ a, x = Except.ok a ∧ f a = Except.error e := by
  cases x with
  | ok a => exact Or.inr ⟨a, rfl, h⟩
  | error e' =>
    left
    have : e' = e := by simpa [Bind.bind, Except.bind] using h
    rw [this]

theorem AllErrorsParse.bind {α β : Type} {x : Except PyError α} {f : α → Except PyError β}
    (hx : AllErrorsParse x) (hf : ∀ a, AllErrorsParse (f a)) :
    AllErrorsParse (x >>= f) := by
  intro e h
  rcases exceptBind_error h with h' | ⟨a, _, h'⟩
  · exact hx e h'
  · exact hf a e h'

theorem AllErrorsParse.pure {α : Type} (a : α) :
    AllErrorsParse (Pure.pure (f := Except PyError) a) := by
  intro e h
  simp [Pure.pure, Except.pure] at h

theorem AllErrorsParse.ok {α : Type} (a : α) : AllErrorsParse (Except.ok a : Except PyError α) := by
  intro e h
  simp at h

theorem AllErrorsParse.map {α β : Type} {x : Except PyError α} (g : α → β)
    (hx : AllErrorsParse x) : AllErrorsParse (x.map g) := by
  intro e h
  cases x with
  | ok a => simp [Except.map] at h
  | error e' =>
    have : e' = e := by simpa [Except.map] using h
    exact this ▸ hx e' rfl

theorem reqField_parse (d : JSON) (k : String) : AllErrorsParse (reqField d k) := by
  intro e h
  unfold reqField at h
  cases hl : d.lookup k <;> rw [hl] at h <;> simp at h
  rw [← h]
  rfl

theorem asStr_parse (v : JSON) : AllErrorsParse v.asStr := by
  intro e h
  cases v <;> simp [JSON.asStr] at h <;> rw [← h] <;> rfl

theorem asInt_parse (v : JSON) : AllErrorsParse v.asInt := by
  intro e h
  cases v <;> simp [JSON.asInt] at h <;> rw [← h] <;> rfl

theorem getListD_parse (d : JSON) (k : String) : AllErrorsParse (getListD d k) := by
  intro e h
  unfold getListD at h
  split at h <;> simp at h <;> rw [← h] <;> rfl

theorem getObjD_parse (d : JSON) (k : String) : AllErrorsParse (getObjD d k) := by
  intro e h
  unfold getObjD at h
  split at h <;> simp at h <;> rw [← h] <;> rfl

theorem mapME_parse {α β : Type} {f : α → Except PyError β}
    (hf : ∀ a, AllErrorsParse (f a)) (l : List α) : AllErrorsParse (mapME f l) := by
  induction l with
  | nil => exact AllErrorsParse.pure []
  | cons a as ih =>
    exact AllErrorsParse.bind (hf a) fun b =>
      AllErrorsParse.bind ih fun bs => AllErrorsParse.pure (b :: bs)

theorem asStrList_parse (xs : List JSON) : AllErrorsParse (asStrList xs) :=
  mapME_parse asStr_parse xs

theorem getOptStrMap_parse (d : JSON) (k : String) : AllErrorsParse (getOptStrMap d k) := by
  unfold getOptStrMap
  split
  · exact AllErrorsParse.map some
      (mapME_parse (fun (p : String × JSON) => AllErrorsParse.map (fun s => (p.1, s)) (asStr_parse p.2)) _)
  · exact AllErrorsParse.ok none
  · exact AllErrorsParse.ok none
  · intro e h
    have : PyError.typeError = e := by simpa using h
    rw [← this]
    rfl

theorem tupleIfTruthy_parse (d : JSON) (k : String) : AllErrorsParse (tupleIfTruthy d k) := by
  unfold tupleIfTruthy
  split
  · exact AllErrorsParse.ok none
  · exact AllErrorsParse.ok none
  · split
    · exact AllErrorsParse.ok none
    · exact AllErrorsParse.map some (asStrList_parse _)
  · intro e h
    have : PyError.typeError = e := by simpa using h
    rw [← this]
    rfl

theorem releaseFile_parse_errors (d : JSON) : AllErrorsParse (ReleaseFile.from_dict d) := by
  unfold ReleaseFile.from_dict
  refine AllErrorsParse.bind (reqField_parse d "upload_time_iso_8601") fun x₁ => ?_
  refine AllErrorsParse.bind (asStr_parse x₁) fun uploadRaw => ?_
  refine AllErrorsParse.bind (reqField_parse d "filename") fun x₂ => ?_
  refine AllErrorsParse.bind (asStr_parse x₂) fun filename => ?_
  refine AllErrorsParse.bind (reqField_parse d "url") fun x₃ => ?_
  refine AllErrorsParse.bind (asStr_parse x₃) fun url => ?_
  refine AllErrorsParse.bind (reqField_parse d "size") fun x₄ => ?_
  refine AllErrorsParse.bind (asInt_parse x₄) fun size => ?_
  refine AllErrorsParse.bind (reqField_parse d "packagetype") fun x₅ => ?_
  refine AllErrorsParse.bind (asStr_parse x₅) fun packagetype => ?_
  refine AllErrorsParse.bind (reqField_parse d "python_version") fun x₆ => ?_
  refine AllErrorsParse.bind (asStr_parse x₆) fun python_version => ?_
  refine AllErrorsParse.bind (reqField_parse d "digests") fun x₇ => ?_
  exact AllErrorsParse.pure _

theorem vulnerability_parse_errors (d : JSON) : AllErrorsParse (Vulnerability.from_dict d) := by
  unfold Vulnerability.from_dict
  refine AllErrorsParse.bind (reqField_parse d "id") fun x₁ => ?_
  refine AllErrorsParse.bind (asStr_parse x₁) fun id => ?_
  refine AllErrorsParse.bind (reqField_parse d "source") fun x₂ => ?_
  refine AllErrorsParse.bind (asStr_parse x₂) fun source => ?_
  refine AllErrorsParse.bind (reqField_parse d "link") fun x₃ => ?_
  refine AllErrorsParse.bind (asStr_parse x₃) fun link => ?_
  refine AllErrorsParse.bind (getListD_parse d "aliases") fun x₄ => ?_
  refine AllErrorsParse.bind (asStrList_parse x₄) fun aliases => ?_
  refine AllErrorsParse.bind (reqField_parse d "details") fun x₅ => ?_
  refine AllErrorsParse.bind (asStr_parse x₅) fun details => ?_
  refine AllErrorsParse.bind (getListD_parse d "fixed_in") fun x₆ => ?_
  refine AllErrorsParse.bind (asStrList_parse x₆) fun fixed_in => ?_
  exact AllErrorsParse.pure _

theorem packageInfo_parse_errors (d : JSON) : AllErrorsParse (PackageInfo.from_dict d) := by
  unfold PackageInfo.from_dict
  refine AllErrorsParse.bind (tupleIfTruthy_parse d "requires_dist") fun rd => ?_
  refine AllErrorsParse.bind (tupleIfTruthy_parse d "provides_extra") fun pe => ?_
  refine AllErrorsParse.bind (reqField_parse d "name") fun x₁ => ?_
  refine AllErrorsParse.bind (asStr_parse x₁) fun name => ?_
  refine AllErrorsParse.bind (reqField_parse d "version") fun x₂ => ?_
  refine AllErrorsParse.bind (asStr_parse x₂) fun version => ?_
  refine AllErrorsParse.bind (getListD_parse d "classifiers") fun x₃ => ?_
  refine AllErrorsParse.bind (asStrList_parse x₃) fun classifiers => ?_
  refine AllErrorsParse.bind (getOptStrMap_parse d "project_urls") fun pu => ?_
  refine AllErrorsParse.bind (reqField_parse d "package_url") fun x₄ => ?_
  refine AllErrorsParse.bind (asStr_parse x₄) fun package_url => ?_
  refine AllErrorsParse.bind (reqField_parse d "release_url") fun x₅ => ?_
  refine AllErrorsParse.bind (asStr_parse x₅) fun release_url => ?_
  exact AllErrorsParse.pure _

theorem exceptError_parse {α : Type} {e₀ : PyError} (h : parseErrorKind e₀ = true) :
    AllErrorsParse (Except.error e₀ : Except PyError α) := by
  intro e he
  have : e₀ = e := by simpa using he
  rw [← this]
  exact h

theorem parseVersionKey_parse (s : String) : AllErrorsParse (parseVersionKey s) := by
  unfold parseVersionKey
  cases Version.parse s with
  | some v => exact AllErrorsParse.ok v
  | none => exact exceptError_parse rfl

theorem parseFilesValue_parse (j : JSON) : AllErrorsParse (parseFilesValue j) := by
  unfold parseFilesValue
  cases j with
  | arr xs => exact mapME_parse releaseFile_parse_errors xs
  | null => exact exceptError_parse rfl
  | bool b => exact exceptError_parse rfl
  | num n => exact exceptError_parse rfl
  | str s => exact exceptError_parse rfl
  | obj fields => exact exceptError_parse rfl

theorem parseReleaseItem_parse (p : String × JSON) : AllErrorsParse (parseReleaseItem p) := by
  unfold parseReleaseItem
  refine AllErrorsParse.bind (parseVersionKey_parse p.1) fun v => ?_
  exact AllErrorsParse.bind (parseFilesValue_parse p.2) fun fs => AllErrorsParse.pure _

theorem parseReleases_parse (raw : List (String × JSON)) : AllErrorsParse (parseReleases raw) := by
  unfold parseReleases
  exact mapME_parse parseReleaseItem_parse raw

theorem packageMetadata_parse_errors (d : JSON) :
    AllErrorsParse (PackageMetadata.from_dict d) := by
  unfold PackageMetadata.from_dict
  refine AllErrorsParse.bind (getObjD_parse d "releases") fun raw => ?_
  refine AllErrorsParse.bind (parseReleases_parse raw) fun releases => ?_
  refine AllErrorsParse.bind (reqField_parse d "info") fun x₁ => ?_
  refine AllErrorsParse.bind (packageInfo_parse_errors x₁) fun info => ?_
  refine AllErrorsParse.bind (getListD_parse d "urls") fun x₂ => ?_
  refine AllErrorsParse.bind (mapME_parse releaseFile_parse_errors x₂) fun urls => ?_
  refine AllErrorsParse.bind (reqField_parse d "last_serial") fun x₃ => ?_
  refine AllErrorsParse.bind (asInt_parse x₃) fun last_serial => ?_
  refine AllErrorsParse.bind (getListD_parse d "vulnerabilities") fun x₄ => ?_
  refine AllErrorsParse.bind (mapME_parse vulnerability_parse_errors x₄) fun vulns => ?_
  exact AllErrorsParse.pure _

theorem releaseMetadata_parse_errors (d : JSON) :
    AllErrorsParse (ReleaseMetadata.from_dict d) := by
  unfold ReleaseMetadata.from_dict
  refine AllErrorsParse.bind (reqField_parse d "info") fun x₁ => ?_
  refine AllErrorsParse.bind (packageInfo_parse_errors x₁) fun info => ?_
  refine AllErrorsParse.bind (getListD_parse d "urls") fun x₂ => ?_
  refine AllErrorsParse.bind (mapME_parse releaseFile_parse_errors x₂) fun urls => ?_
  refine AllErrorsParse.bind (reqField_parse d "last_serial") fun x₃ => ?_
  refine AllErrorsParse.bind (asInt_parse x₃) fun last_serial => ?_
  refine AllErrorsParse.bind (getListD_parse d "vulnerabilities") fun x₄ => ?_
  refine AllErrorsParse.bind (mapME_parse vulnerability_parse_errors x₄) fun vulns => ?_
  exact AllErrorsParse.pure _

/-! ## Success-case inversions of the parsers -/

theorem reqField_ok {d : JSON} {k : String} {v : JSON}
    (h : reqField d k = Except.ok v) : d.lookup k = some v := by
  unfold reqField at h
  cases hl : d.lookup k <;> rw [hl] at h <;> simp_all

theorem mapME_ok_mem {α β : Type} {f : α → Except PyError β} :
    ∀ {l : List α} {r : List β}, mapME f l = Except.ok r →
      ∀ b ∈ r, ∃ a ∈ l, f a = Except.ok b := by
  intro l
  induction l with
  | nil =>
    intro r h b hb
    have hr : r = [] := by simpa [mapME, Pure.pure, Except.pure] using h.symm
    subst hr
    simp at hb
  | cons a as ih =>
    intro r h b hb
    unfold mapME at h
    rcases exceptBind_ok h with ⟨b₀, hb₀, h'⟩
    rcases exceptBind_ok h' with ⟨bs, hbs, h''⟩
    have hr : r = b₀ :: bs := by simpa [Pure.pure, Except.pure] using h''.symm
    subst hr
    rcases List.mem_cons.mp hb with rfl | hb'
    · exact ⟨a, List.mem_cons_self a as, hb₀⟩
    · rcases ih hbs b hb' with ⟨a', ha', hfa⟩
      exact ⟨a', List.mem_cons_of_mem a ha', hfa⟩

theorem mapME_error_of_mem {α β : Type} {f : α → Except PyError β} {l : List α} {a : α}
    {e₀ : PyError} (ha : a ∈ l) (hfa : f a = Except.error e₀) :
    ∃ e, mapME f l = Except.error e := by
  induction l with
  | nil => simp at ha
  | cons x xs ih =>
    rcases List.mem_cons.mp ha with rfl | ha'
    · refine ⟨e₀, ?_⟩
      unfold mapME
      rw [hfa]
      rfl
    · cases hx : f x with
      | error e₁ =>
        refine ⟨e₁, ?_⟩
        unfold mapME
        rw [hx]
        rfl
      | ok b =>
        rcases ih ha' with ⟨e₁, he₁⟩
        refine ⟨e₁, ?_⟩
        unfold mapME
        rw [hx]
        show mapME f xs >>= _ = Except.error e₁
        rw [he₁]
        rfl

theorem parseReleaseItem_ok {p : String × JSON} {q : Version × List ReleaseFile}
    (h : parseReleaseItem p = Except.ok q) : Version.parse p.1 = some q.1 := by
  unfold parseReleaseItem at h
  rcases exceptBind_ok h with ⟨v, hv, h⟩
  rcases exceptBind_ok h with ⟨fs, hfs, h⟩
  have hq : q = (v, fs) := by simpa [Pure.pure, Except.pure] using h.symm
  unfold parseVersionKey at hv
  cases hp : Version.parse p.1 <;> rw [hp] at hv
  · simp at hv
  · have : _ = v := Except.ok.inj hv
    rw [hq, ← this]

theorem parseReleaseItem_badVersion {p : String × JSON} (h : Version.parse p.1 = none) :
    parseReleaseItem p = Except.error (PyError.invalidVersion p.1) := by
  unfold parseReleaseItem parseVersionKey
  rw [h]
  rfl

theorem PackageMetadata.from_dict_ok {d : JSON} {m : PackageMetadata}
    (h : PackageMetadata.from_dict d = Except.ok m) :
    ∃ raw rs, getObjD d "releases" = Except.ok raw ∧ parseReleases raw = Except.ok rs ∧
      m.releases = rs ∧ ∃ v, d.lookup "last_serial" = some v := by
  unfold PackageMetadata.from_dict at h
  rcases exceptBind_ok h with ⟨raw, hraw, h⟩
  rcases exceptBind_ok h with ⟨rs, hrs, h⟩
  rcases exceptBind_ok h with ⟨xi, hxi, h⟩
  rcases exceptBind_ok h with ⟨info, hinfo, h⟩
  rcases exceptBind_ok h with ⟨xu, hxu, h⟩
  rcases exceptBind_ok h with ⟨urls, hurls, h⟩
  rcases exceptBind_ok h with ⟨xs, hxs, h⟩
  rcases exceptBind_ok h with ⟨serial, hserial, h⟩
  rcases exceptBind_ok h with ⟨xv, hxv, h⟩
  rcases exceptBind_ok h with ⟨vulns, hvulns, h⟩
  have hm : m = { info := info, releases := rs, urls := urls, last_serial := serial
                  vulnerabilities := vulns } := by
    simpa [Pure.pure, Except.pure] using h.symm
  exact ⟨raw, rs, hraw, hrs, by rw [hm], ⟨xs, reqField_ok hxs⟩⟩

theorem PackageInfo.from_dict_ok_required {d : JSON} {info : PackageInfo}
    (h : PackageInfo.from_dict d = Except.ok info) :
    (∃ v, d.lookup "name" = some v) ∧ (∃ v, d.lookup "version" = some v) ∧
    (∃ v, d.lookup "package_url" = some v) ∧ (∃ v, d.lookup "release_url" = some v) := by
  unfold PackageInfo.from_dict at h
  rcases exceptBind_ok h with ⟨rd, hrd, h⟩
  rcases exceptBind_ok h with ⟨pe, hpe, h⟩
  rcases exceptBind_ok h with ⟨x₁, hx₁, h⟩
  rcases exceptBind_ok h with ⟨name, hname, h⟩
  rcases exceptBind_ok h with ⟨x₂, hx₂, h⟩
  rcases exceptBind_ok h with ⟨ver, hver, h⟩
  rcases exceptBind_ok h with ⟨x₃, hx₃, h⟩
  rcases exceptBind_ok h with ⟨cls, hcls, h⟩
  rcases exceptBind_ok h with ⟨pu, hpu, h⟩
  rcases exceptBind_ok h with ⟨x₄, hx₄, h⟩
  rcases exceptBind_ok h with ⟨purl, hpurl, h⟩
  rcases exceptBind_ok h with ⟨x₅, hx₅, h⟩
  exact ⟨⟨x₁, reqField_ok hx₁⟩, ⟨x₂, reqField_ok hx₂⟩,
    ⟨x₄, reqField_ok hx₄⟩, ⟨x₅, reqField_ok hx₅⟩⟩

/-- Claim C5: every key of the `releases` mapping of a successfully parsed
`PackageMetadata` is a successfully parsed version of some raw entry, and a
single unparseable version string makes the whole parse fail. -/
theorem releases_keys_are_parsed (d : JSON) (raw : List (String × JSON))
    (hraw : getObjD d "releases" = Except.ok raw) :
    (∀ m, PackageMetadata.from_dict d = Except.ok m →
        ∀ p ∈ m.releases, ∃ q ∈ raw, Version.parse q.1 = some p.1) ∧
    (∀ q ∈ raw, Version.parse q.1 = none →
        ∃ e, PackageMetadata.from_dict d = Except.error e ∧ parseErrorKind e = true) := by
  constructor
  · intro m hm p hp
    rcases PackageMetadata.from_dict_ok hm with ⟨raw', rs, hraw', hrs, hrel, _⟩
    have hraweq : raw' = raw := by
      rw [hraw] at hraw'
      exact (Except.ok.inj hraw').symm
    subst hraweq
    rw [hrel] at hp
    rcases mapME_ok_mem hrs p hp with ⟨q, hq, hfq⟩
    exact ⟨q, hq, parseReleaseItem_ok hfq⟩
  · intro q hq hbad
    rcases mapME_error_of_mem hq (parseReleaseItem_badVersion hbad) with ⟨e, he⟩
    refine ⟨e, ?_, parseReleases_parse raw e (by unfold parseReleases; exact he)⟩
    unfold PackageMetadata.from_dict
    rw [hraw]
    show parseReleases raw >>= _ = Except.error e
    unfold parseReleases
    rw [he]
    rfl

/-! ## Behaviour of the retry loop -/

theorem dispatch_200 {url : String} {r : HTTPResponse} (h : r.status = 200) :
    dispatch url r = Except.ok r.body := by
  simp [dispatch, h]

theorem dispatch_404 {url : String} {r : HTTPResponse} (h : r.status = 404) :
    dispatch url r = Except.error (PyError.packageNotFound url none) := by
  simp [dispatch, h]

theorem dispatch_server_error {url : String} {r : HTTPResponse} (h : 500 ≤ r.status) :
    dispatch url r = Except.error (PyError.serverError r.status none) := by
  have h200 : ¬(r.status = 200) := by omega
  have h404 : ¬(r.status = 404) := by omega
  have h429 : ¬(r.status = 429) := by omega
  simp [dispatch, h200, h404, h429, h]

theorem sleeps_range_shift (b : ℚ) (attempt k : Nat) (h : attempt < k) (sleeps : List ℚ) :
    (sleeps ++ [b * 2 ^ attempt]) ++
      (List.range (k - (attempt + 1))).map (fun i => b * 2 ^ (attempt + 1 + i)) =
    sleeps ++ (List.range (k - attempt)).map (fun i => b * 2 ^ (attempt + i)) := by
  rw [List.append_assoc]
  congr 1
  have hk : k - attempt = (k - (attempt + 1)) + 1 := by omega
  rw [hk, List.range_succ_eq_map, List.map_cons, List.map_map]
  simp only [Nat.add_zero, List.singleton_append, List.cons.injEq]
  refine ⟨trivial, ?_⟩
  apply List.map_congr_left
  intro i _
  simp only [Function.comp_apply]
  congr 2
  omega

theorem requestLoop_terminal (b : ℚ) (m : Nat) (url : String) (responses : Nat → HTTPResult) :
    ∀ (fuel attempt : Nat) (lastExc : Option PyError) (sleeps : List ℚ) (k : Nat),
      attempt + fuel = m → attempt ≤ k → k < m →
      (∀ i, attempt ≤ i → i < k →
        ∃ e, attemptResult url (responses i) = Except.error e ∧ caughtByRetryHandler e = true) →
      ((∃ body, attemptResult url (responses k) = Except.ok body) ∨
        (∃ e, attemptResult url (responses k) = Except.error e ∧ caughtByRetryHandler e = false)) →
      requestLoop b m url responses attempt fuel lastExc sleeps =
        { outcome := attemptResult url (responses k), attempts := k + 1,
          sleeps := sleeps ++ (List.range (k - attempt)).map (fun i => b * 2 ^ (attempt + i)) } := by
  intro fuel
  induction fuel with
  | zero =>
    intro attempt lastExc sleeps k hfm hak hkm hr hterm
    omega
  | succ fuel ih =>
    intro attempt lastExc sleeps k hfm hak hkm hr hterm
    by_cases hake : attempt = k
    · subst hake
      have hrange : attempt - attempt = 0 := by omega
      rcases hterm with ⟨body, hb⟩ | ⟨e, he, hc⟩
      · simp only [requestLoop]
        rw [hb]
        simp [hrange]
      · simp only [requestLoop]
        rw [he]
        simp [hc, hrange, he]
    · have hlt : attempt < k := by omega
      rcases hr attempt (Nat.le_refl _) hlt with ⟨e, he, hc⟩
      simp only [requestLoop]
      rw [he]
      have hml : attempt < m - 1 := by omega
      simp only [hc, if_true, hml, if_pos]
      rw [ih (attempt + 1) (some e) (sleeps ++ [b * 2 ^ attempt]) k (by omega) (by omega) hkm
        (fun i h1 h2 => hr i (by omega) h2) hterm]
      rw [sleeps_range_shift b attempt k hlt sleeps]

theorem requestLoop_exhaust (b : ℚ) (m : Nat) (url : String) (responses : Nat → HTTPResult) :
    ∀ (fuel attempt : Nat) (lastExc : Option PyError) (sleeps : List ℚ),
      attempt + fuel = m → attempt < m →
      (∀ i, attempt ≤ i → i < m →
        ∃ e, attemptResult url (responses i) = Except.error e ∧ caughtByRetryHandler e = true) →
      ∃ e, attemptResult url (responses (m - 1)) = Except.error e ∧
        requestLoop b m url responses attempt fuel lastExc sleeps =
          { outcome := Except.error e, attempts := m,
            sleeps := sleeps ++ (List.range (m - 1 - attempt)).map (fun i => b * 2 ^ (attempt + i)) } := by
  intro fuel
  induction fuel with
  | zero =>
    intro attempt lastExc sleeps hfm ham hr
    omega
  | succ fuel ih =>
    intro attempt lastExc sleeps hfm ham hr
    rcases hr attempt (Nat.le_refl _) ham with ⟨e, he, hc⟩
    by_cases hml : attempt < m - 1
    · rcases ih (attempt + 1) (some e) (sleeps ++ [b * 2 ^ attempt]) (by omega) (by omega)
        (fun i h1 h2 => hr i (by omega) h2) with ⟨e', he', heq⟩
      refine ⟨e', he', ?_⟩
      simp only [requestLoop]
      rw [he]
      simp only [hc, if_true, hml, if_pos]
      rw [heq, sleeps_range_shift b attempt (m - 1) hml sleeps]
    · have haeq : attempt = m - 1 := by omega
      have hfuel0 : fuel = 0 := by omega
      subst hfuel0
      refine ⟨e, haeq ▸ he, ?_⟩
      simp only [requestLoop]
      rw [he]
      simp only [hc, if_true, hml, if_neg, if_false]
      have hrange : m - 1 - attempt = 0 := by omega
      simp [hrange]
      omega

/-- Claim C1: when every attempt fails with an exception caught by the
retry handler, `_request` performs exactly `max_retries` attempts, sleeps
`retry_backoff * 2 ^ i` after each non-final attempt `i` (and not after the
final one), and re-raises the failure of the last attempt. -/
theorem request_exhausts_retries (st : ClientState) (cfg : ClientConfig) (url : String)
    (responses : Nat → HTTPResult)
    (hsession : st.session = true) (hm : 0 < cfg.max_retries)
    (hr : ∀ i, i < cfg.max_retries →
      ∃ e, attemptResult url (responses i) = Except.error e ∧ caughtByRetryHandler e = true) :
    ∃ e, attemptResult url (responses (cfg.max_retries - 1)) = Except.error e ∧
      _request st cfg url responses =
        { outcome := Except.error e, attempts := cfg.max_retries,
          sleeps := (List.range (cfg.max_retries - 1)).map
            (fun i => cfg.retry_backoff * 2 ^ i) } := by
  rcases requestLoop_exhaust cfg.retry_backoff cfg.max_retries url responses
    cfg.max_retries 0 none [] (by omega) hm (fun i _ h2 => hr i h2) with ⟨e, he, heq⟩
  refine ⟨e, he, ?_⟩
  unfold _request
  rw [if_pos hsession, heq]
  simp only [List.nil_append, Nat.sub_zero]
  congr 1
  apply List.map_congr_left
  intro i _
  congr 2
  omega

/-- Claim C2: a 404 response terminates `_request` immediately with
`PackageNotFoundError(url)`: the attempt receiving the 404 is the last one,
whatever `max_retries` is, and no backoff sleep follows it. -/
theorem request_404_immediate (st : ClientState) (cfg : ClientConfig) (url : String)
    (responses : Nat → HTTPResult) (k : Nat)
    (hsession : st.session = true) (hk : k < cfg.max_retries)
    (hbefore : ∀ i, i < k →
      ∃ e, attemptResult url (responses i) = Except.error e ∧ caughtByRetryHandler e = true)
    (h404 : ∃ resp, responses k = HTTPResult.response resp ∧ resp.status = 404) :
    _request st cfg url responses =
      { outcome := Except.error (PyError.packageNotFound url none), attempts := k + 1,
        sleeps := (List.range k).map (fun i => cfg.retry_backoff * 2 ^ i) } := by
  rcases h404 with ⟨resp, hresp, hstatus⟩
  have hterm : attemptResult url (responses k) = Except.error (PyError.packageNotFound url none) := by
    rw [hresp]
    exact dispatch_404 hstatus
  unfold _request
  rw [if_pos hsession]
  rw [requestLoop_terminal cfg.retry_backoff cfg.max_retries url responses cfg.max_retries 0
    none [] k (by omega) (Nat.zero_le _) hk (fun i _ h2 => hbefore i h2)
    (Or.inr ⟨PyError.packageNotFound url none, hterm, rfl⟩)]
  rw [hterm]
  simp only [List.nil_append, Nat.sub_zero]
  congr 1
  apply List.map_congr_left
  intro i _
  congr 2
  omega

/-! ## Where `_request` errors come from -/

theorem requestLoop_error_origin (b : ℚ) (m : Nat) (url : String) (responses : Nat → HTTPResult) :
    ∀ (fuel attempt : Nat) (lastExc : Option PyError) (sleeps : List ℚ) (e : PyError),
      (requestLoop b m url responses attempt fuel lastExc sleeps).outcome = Except.error e →
      (∃ i, attemptResult url (responses i) = Except.error e) ∨ lastExc = some e ∨
        ∃ msg, e = PyError.runtimeError msg := by
  intro fuel
  induction fuel with
  | zero =>
    intro attempt lastExc sleeps e h
    cases lastExc with
    | some e' =>
      simp only [requestLoop] at h
      exact Or.inr (Or.inl (by rw [Except.error.inj h]))
    | none =>
      simp only [requestLoop] at h
      exact Or.inr (Or.inr ⟨_, (Except.error.inj h).symm⟩)
  | succ fuel ih =>
    intro attempt lastExc sleeps e h
    simp only [requestLoop] at h
    cases har : attemptResult url (responses attempt) with
    | ok body =>
      rw [har] at h
      simp at h
    | error e' =>
      rw [har] at h
      by_cases hc : caughtByRetryHandler e'
      · simp only [hc, if_true] at h
        by_cases hml : attempt < m - 1
        · rw [if_pos hml] at h
          rcases ih _ _ _ _ h with h1 | h1 | h1
          · exact Or.inl h1
          · exact Or.inl ⟨attempt, by rw [har, Option.some.inj h1]⟩
          · exact Or.inr (Or.inr h1)
        · rw [if_neg hml] at h
          rcases ih _ _ _ _ h with h1 | h1 | h1
          · exact Or.inl h1
          · exact Or.inl ⟨attempt, by rw [har, Option.some.inj h1]⟩
          · exact Or.inr (Or.inr h1)
      · simp only [hc, if_false] at h
        exact Or.inl ⟨attempt, by rw [har, Except.error.inj h]⟩

theorem request_error_origin {st : ClientState} {cfg : ClientConfig} {url : String}
    {responses : Nat → HTTPResult} {e : PyError}
    (h : (_request st cfg url responses).outcome = Except.error e) :
    (∃ i, attemptResult url (responses i) = Except.error e) ∨
      ∃ msg, e = PyError.runtimeError msg := by
  unfold _request at h
  by_cases hs : st.session = true
  · rw [if_pos hs] at h
    rcases requestLoop_error_origin _ _ _ _ _ _ _ _ _ h with h1 | h1 | h1
    · exact Or.inl h1
    · simp at h1
    · exact Or.inr h1
  · rw [if_neg hs] at h
    exact Or.inr ⟨_, (Except.error.inj h).symm⟩

/-- Full classification of the errors one attempt can raise: the library's
own conditions with their stated payloads, the transport failure, or the
built-in `ValueError` from `int()` on a malformed `Retry-After` header of a
429 response. -/
theorem attemptResult_error_classify {url : String} {r : HTTPResult} {e : PyError}
    (h : attemptResult url r = Except.error e) :
    (∃ resp, r = HTTPResult.response resp ∧ resp.status = 404 ∧
      e = PyError.packageNotFound url none) ∨
    (∃ n, e = PyError.rateLimited n) ∨
    (∃ s msg, e = PyError.serverError s msg) ∨
    (e = PyError.clientError) ∨
    (∃ resp s, r = HTTPResult.response resp ∧ resp.status = 429 ∧ resp.retryAfter = some s ∧
      s ≠ "" ∧ pyInt s = none ∧ e = PyError.valueError s) := by
  cases r with
  | clientError =>
    have : PyError.clientError = e := by simpa [attemptResult] using h
    exact Or.inr (Or.inr (Or.inr (Or.inl this.symm)))
  | response resp =>
    simp only [attemptResult] at h
    unfold dispatch at h
    by_cases h1 : resp.status = 200
    · rw [if_pos h1] at h
      exact absurd h (by simp)
    · rw [if_neg h1] at h
      by_cases h2 : resp.status = 404
      · rw [if_pos h2] at h
        exact Or.inl ⟨resp, rfl, h2, (Except.error.inj h).symm⟩
      · rw [if_neg h2] at h
        by_cases h3 : resp.status = 429
        · rw [if_pos h3] at h
          cases hra : resp.retryAfter with
          | none =>
            rw [hra] at h
            dsimp only at h
            exact Or.inr (Or.inl ⟨none, (Except.error.inj h).symm⟩)
          | some s =>
            rw [hra] at h
            dsimp only at h
            by_cases hs : s = ""
            · rw [if_neg (by simp [hs])] at h
              exact Or.inr (Or.inl ⟨none, (Except.error.inj h).symm⟩)
            · rw [if_pos hs] at h
              cases hpi : pyInt s with
              | some n =>
                rw [hpi] at h
                dsimp only at h
                exact Or.inr (Or.inl ⟨some n, (Except.error.inj h).symm⟩)
              | none =>
                rw [hpi] at h
                dsimp only at h
                exact Or.inr (Or.inr (Or.inr (Or.inr
                  ⟨resp, s, rfl, h3, hra, hs, hpi, (Except.error.inj h).symm⟩)))
        · rw [if_neg h3] at h
          by_cases h4 : resp.status ≥ 500
          · rw [if_pos h4] at h
            exact Or.inr (Or.inr (Or.inl ⟨resp.status, none, (Except.error.inj h).symm⟩))
          · rw [if_neg h4] at h
            exact Or.inr (Or.inr (Or.inl
              ⟨resp.status, some ("Unexpected status: " ++ toString resp.status),
                (Except.error.inj h).symm⟩))

/-! ## Where the public operations' errors come from -/

theorem get_package_fetch_error_sources {cfg : ClientConfig} {st' : ClientState} {now : ℚ}
    {cache_key url : String} {responses : Nat → HTTPResult} {e : PyError}
    (h : (get_package_fetch cfg st' now cache_key url responses).result = Except.error e) :
    ((_request st' cfg url responses).outcome = Except.error e) ∨
    ∃ data, PackageMetadata.from_dict data = Except.error e := by
  unfold get_package_fetch at h
  dsimp only at h
  cases hout : (_request st' cfg url responses).outcome with
  | error e' =>
    rw [hout] at h
    dsimp only at h
    exact Or.inl (by rw [Except.error.inj h])
  | ok data =>
    rw [hout] at h
    dsimp only at h
    cases hfd : PackageMetadata.from_dict data with
    | error e' =>
      rw [hfd] at h
      dsimp only at h
      exact Or.inr ⟨data, by rw [hfd, Except.error.inj h]⟩
    | ok res =>
      rw [hfd] at h
      dsimp only at h
      simp at h

theorem get_release_fetch_error_sources {cfg : ClientConfig} {st' : ClientState} {now : ℚ}
    {cache_key url : String} {responses : Nat → HTTPResult} {e : PyError}
    (h : (get_release_fetch cfg st' now cache_key url responses).result = Except.error e) :
    ((_request st' cfg url responses).outcome = Except.error e) ∨
    ∃ data, ReleaseMetadata.from_dict data = Except.error e := by
  unfold get_release_fetch at h
  dsimp only at h
  cases hout : (_request st' cfg url responses).outcome with
  | error e' =>
    rw [hout] at h
    dsimp only at h
    exact Or.inl (by rw [Except.error.inj h])
  | ok data =>
    rw [hout] at h
    dsimp only at h
    cases hfd : ReleaseMetadata.from_dict data with
    | error e' =>
      rw [hfd] at h
      dsimp only at h
      exact Or.inr ⟨data, by rw [hfd, Except.error.inj h]⟩
    | ok res =>
      rw [hfd] at h
      dsimp only at h
      simp at h

theorem get_package_error_sources {cfg : ClientConfig} {st : ClientState} {now : ℚ}
    {package : String} {responses : Nat → HTTPResult} {e : PyError}
    (h : (get_package cfg st now package responses).result = Except.error e) :
    (∃ st', (_request st' cfg (cfg.base_url ++ "/pypi/" ++ package ++ "/json")
        responses).outcome = Except.error e) ∨
    ∃ data, PackageMetadata.from_dict data = Except.error e := by
  unfold get_package at h
  dsimp only at h
  cases hlk : (cacheLookup st now (_get_cache_key cfg.base_url package none)).1 with
  | some v =>
    rw [hlk] at h
    dsimp only at h
    simp at h
  | none =>
    rw [hlk] at h
    dsimp only at h
    rcases get_package_fetch_error_sources h with h' | h'
    · exact Or.inl ⟨_, h'⟩
    · exact Or.inr h'

theorem get_release_error_sources {cfg : ClientConfig} {st : ClientState} {now : ℚ}
    {package version : String} {responses : Nat → HTTPResult} {e : PyError}
    (h : (get_release cfg st now package version responses).result = Except.error e) :
    (∃ st', (_request st' cfg (cfg.base_url ++ "/pypi/" ++ package ++ "/" ++ version ++ "/json")
        responses).outcome = Except.error e) ∨
    ∃ data, ReleaseMetadata.from_dict data = Except.error e := by
  unfold get_release at h
  dsimp only at h
  cases hlk : (cacheLookup st now (_get_cache_key cfg.base_url package (some version))).1 with
  | some v =>
    rw [hlk] at h
    dsimp only at h
    simp at h
  | none =>
    rw [hlk] at h
    dsimp only at h
    rcases get_release_fetch_error_sources h with h' | h'
    · exact Or.inl ⟨_, h'⟩
    · exact Or.inr h'

/-- Claim C8 (amended): every `PackageNotFoundError` surfacing from
`get_release` carries the full request URL (which embeds the package name
and version as path segments) in its `package` slot — not the bare package
name — and its `version` slot is always `None`, because `client.py` raises
`PackageNotFoundError(url)`. -/
theorem get_release_notFound_fields (cfg : ClientConfig) (st : ClientState) (now : ℚ)
    (package version : String) (responses : Nat → HTTPResult) (p : String) (v : Option String)
    (h : (get_release cfg st now package version responses).result =
      Except.error (PyError.packageNotFound p v)) :
    p = cfg.base_url ++ "/pypi/" ++ package ++ "/" ++ version ++ "/json" ∧ v = none := by
  rcases get_release_error_sources h with ⟨st', hreq⟩ | ⟨data, hparse⟩
  · rcases request_error_origin hreq with ⟨i, hi⟩ | ⟨msg, hmsg⟩
    · rcases attemptResult_error_classify hi with
        ⟨resp, _, _, heq⟩ | ⟨n, heq⟩ | ⟨s, msg, heq⟩ | heq | ⟨resp, s, _, _, _, _, _, heq⟩
      · rcases PyError.packageNotFound.inj heq with ⟨hp, hv⟩
        exact ⟨hp, hv⟩
      · simp at heq
      · simp at heq
      · simp at heq
      · simp at heq
    · simp at hmsg
  · have hk := releaseMetadata_parse_errors data _ hparse
    simp [parseErrorKind] at hk

/-- Claim C9 (amended): a `get_package` call ends in a success value or in
one of the library's error conditions (`PackageNotFoundError`,
`RateLimitError`, `PyPIServerError`, a transport `ClientError`, or the
usage/invariant `RuntimeError`) — except that a 429 response whose
`Retry-After` header is non-empty and non-integer surfaces a built-in
`ValueError`, and a 200 body that fails to parse surfaces a built-in
parse error (`KeyError` / `TypeError` / `InvalidVersion`), since the code
defines no `MalformedResponse` wrapper. -/
theorem get_package_outcomes (cfg : ClientConfig) (st : ClientState) (now : ℚ)
    (package : String) (responses : Nat → HTTPResult) :
    (∃ v, (get_package cfg st now package responses).result = Except.ok v) ∨
    (∃ e, (get_package cfg st now package responses).result = Except.error e ∧
      (httpErrorKind e = true ∨ (∃ msg, e = PyError.runtimeError msg) ∨
       parseErrorKind e = true ∨
       (∃ i resp s, responses i = HTTPResult.response resp ∧ resp.status = 429 ∧
         resp.retryAfter = some s ∧ s ≠ "" ∧ pyInt s = none ∧ e = PyError.valueError s))) := by
  cases hres : (get_package cfg st now package responses).result with
  | ok v => exact Or.inl ⟨v, rfl⟩
  | error e =>
    refine Or.inr ⟨e, rfl, ?_⟩
    rcases get_package_error_sources hres with ⟨st', hreq⟩ | ⟨data, hparse⟩
    · rcases request_error_origin hreq with ⟨i, hi⟩ | hmsg
      · rcases attemptResult_error_classify hi with
          ⟨resp, hri, hst, heq⟩ | ⟨n, heq⟩ | ⟨s, msg, heq⟩ | heq | ⟨resp, s, hri, hst, hra, hs, hpi, heq⟩
        · exact Or.inl (by rw [heq]; rfl)
        · exact Or.inl (by rw [heq]; rfl)
        · exact Or.inl (by rw [heq]; rfl)
        · exact Or.inl (by rw [heq]; rfl)
        · exact Or.inr (Or.inr (Or.inr ⟨i, resp, s, hri, hst, hra, hs, hpi, heq⟩))
      · exact Or.inr (Or.inl hmsg)
    · exact Or.inr (Or.inr (Or.inl (packageMetadata_parse_errors data e hparse)))

/-! ## Cache behaviour of `get_package` -/

theorem request_first_ok {st : ClientState} {cfg : ClientConfig} {url : String}
    {responses : Nat → HTTPResult} {body : JSON}
    (hsession : st.session = true) (hm : 0 < cfg.max_retries)
    (hresp : attemptResult url (responses 0) = Except.ok body) :
    _request st cfg url responses = { outcome := Except.ok body, attempts := 1, sleeps := [] } := by
  unfold _request
  rw [if_pos hsession]
  rw [requestLoop_terminal cfg.retry_backoff cfg.max_retries url responses cfg.max_retries 0
    none [] 0 (by omega) (Nat.le_refl 0) hm (fun i h1 h2 => absurd h2 (by omega))
    (Or.inl ⟨body, hresp⟩)]
  rw [hresp]
  simp

/-- Claim C4: with `cache_ttl = 300`, a first `get_package` call against a
first-attempt 200 response issues exactly one HTTP request and stores the
parsed object; a second sequential call (no more than the TTL later)
issues zero HTTP requests and returns the identical cached object. -/
theorem get_package_caches (cfg : ClientConfig) (package : String)
    (responses responses2 : Nat → HTTPResult) (t1 t2 : ℚ) (body : JSON) (m : PackageMetadata)
    (httl : cfg.cache_ttl = some 300)
    (hm : 0 < cfg.max_retries)
    (hresp : attemptResult (cfg.base_url ++ "/pypi/" ++ package ++ "/json") (responses 0) =
      Except.ok body)
    (hparse : PackageMetadata.from_dict body = Except.ok m)
    (hseq : t2 ≤ t1 + 300) :
    ∃ st1,
      get_package cfg { session := true, cache := initCache cfg.cache_ttl } t1 package responses =
        { result := Except.ok (Cached.pkg m), httpAttempts := 1, sleeps := [], state := st1 } ∧
      get_package cfg st1 t2 package responses2 =
        { result := Except.ok (Cached.pkg m), httpAttempts := 0, sleeps := [], state := st1 } := by
  have hcache : initCache cfg.cache_ttl = some { ttl := 300, cache := [] } := by
    rw [httl]
    rfl
  refine ⟨{ session := true, cache := some ⟨300,
    [(_get_cache_key cfg.base_url package none, (t1 + (300 : ℚ), Cached.pkg m))]⟩ }, ?_, ?_⟩
  · unfold get_package
    rw [hcache]
    dsimp only
    have hlk : cacheLookup { session := true, cache := some { ttl := 300, cache := [] } } t1
        (_get_cache_key cfg.base_url package none) =
        (none, { session := true, cache := some { ttl := 300, cache := [] } }) := by
      simp [cacheLookup, TTLCache.get]
    rw [hlk]
    dsimp only
    unfold get_package_fetch
    rw [request_first_ok rfl hm hresp]
    dsimp only
    rw [hparse]
    dsimp only
    simp [cacheStore, TTLCache.set]
  · unfold get_package
    dsimp only
    have hlk : cacheLookup { session := true, cache := some ⟨300,
          [(_get_cache_key cfg.base_url package none, (t1 + (300 : ℚ), Cached.pkg m))]⟩ } t2
        (_get_cache_key cfg.base_url package none) =
        (some (Cached.pkg m), { session := true, cache := some ⟨300,
          [(_get_cache_key cfg.base_url package none, (t1 + (300 : ℚ), Cached.pkg m))]⟩ }) := by
      simp only [cacheLookup, TTLCache.get, List.lookup, beq_self_eq_true]
      rw [if_neg (by exact not_lt.mpr hseq)]
    rw [hlk]

/-! ## Required fields and parse failures (claim C3) -/

theorem parseErrorKind_not_http {e : PyError} (h : parseErrorKind e = true) :
    httpErrorKind e = false ∧ caughtByRetryHandler e = false := by
  cases e <;> simp_all [parseErrorKind, httpErrorKind, caughtByRetryHandler]

/-- Claim C3 (amended): absence of one of the required fields `name`,
`version`, `package_url`, `release_url` (or `last_serial` at the metadata
level) fails the parse with a built-in parse error (`KeyError` kind) that
is distinct from every HTTP/network condition and is not caught by the
retry handler; parsing happens after `_request` returns, so a 200 response
with an unparseable body is fetched exactly once, with no retry and no
backoff sleep.  (Digest hashes are *not* required — see the
counterexample.) -/
theorem required_fields_parse_failures :
    (∀ d k, (k = "name" ∨ k = "version" ∨ k = "package_url" ∨ k = "release_url") →
      JSON.lookup d k = none →
      ∃ e, PackageInfo.from_dict d = Except.error e ∧ parseErrorKind e = true ∧
        httpErrorKind e = false ∧ caughtByRetryHandler e = false) ∧
    (∀ d pm, PackageMetadata.from_dict d = Except.ok pm →
      ∃ v, JSON.lookup d "last_serial" = some v) ∧
    (∀ cfg now package responses body e,
      0 < cfg.max_retries →
      attemptResult (cfg.base_url ++ "/pypi/" ++ package ++ "/json") (responses 0) =
        Except.ok body →
      PackageMetadata.from_dict body = Except.error e →
      get_package cfg { session := true, cache := none } now package responses =
        { result := Except.error e, httpAttempts := 1, sleeps := []
          state := { session := true, cache := none } }) := by
  refine ⟨?_, ?_, ?_⟩
  · intro d k hk habsent
    cases hfd : PackageInfo.from_dict d with
    | error e =>
      have hkind := packageInfo_parse_errors d e hfd
      exact ⟨e, rfl, hkind, parseErrorKind_not_http hkind⟩
    | ok info =>
      rcases PackageInfo.from_dict_ok_required hfd with ⟨h1, h2, h3, h4⟩
      rcases hk with rfl | rfl | rfl | rfl
      · rcases h1 with ⟨v, hv⟩
        rw [habsent] at hv
        exact absurd hv (by simp)
      · rcases h2 with ⟨v, hv⟩
        rw [habsent] at hv
        exact absurd hv (by simp)
      · rcases h3 with ⟨v, hv⟩
        rw [habsent] at hv
        exact absurd hv (by simp)
      · rcases h4 with ⟨v, hv⟩
        rw [habsent] at hv
        exact absurd hv (by simp)
  · intro d pm hok
    rcases PackageMetadata.from_dict_ok hok with ⟨_, _, _, _, _, hserial⟩
    exact hserial
  · intro cfg now package responses body e hm hresp hbad
    unfold get_package
    dsimp only
    have hlk : cacheLookup { session := true, cache := none } now
        (_get_cache_key cfg.base_url package none) =
        (none, { session := true, cache := none }) := rfl
    rw [hlk]
    dsimp only
    unfold get_package_fetch
    rw [request_first_ok rfl hm hresp]
    dsimp only
    rw [hbad]

/-! ## Claim C7 and concrete counterexamples -/

/-- Claim C7 (code observation): `Digests.from_dict({})` defaults every
missing hash to `None`, not to the empty string — the repo's own test
`test_from_dict_missing_fields` asserts `""` for all three fields, so the
code contradicts its test (and the spec). -/
theorem digests_missing_default_none :
    Digests.from_dict (JSON.obj []) = { md5 := none, sha256 := none, blake2b_256 := none } ∧
    Digests.from_dict (JSON.obj []) ≠
      { md5 := some "", sha256 := some "", blake2b_256 := some "" } :=
  ⟨rfl, by decide⟩

/-- Claim C3, counterexample: a file object whose `digests` object is
present but carries no hash at all parses successfully — the absence of a
digest hash does not fail the parse, contradicting the claim that digest
hashes are required fields whose absence raises a malformed-response
condition. -/
theorem digest_absence_parses :
    ReleaseFile.from_dict fileNoHashes = Except.ok fileNoHashesParsed :=
  rfl

/-- Claim C8, counterexample: a 404 on `get_release cfg3 _ _ "requests"
"1.0"` raises a `PackageNotFoundError` whose `package` slot is the full
request URL — not the package name — and whose `version` slot is `None`,
not the requested `"1.0"`. -/
theorem get_release_notFound_counterexample :
    (get_release cfg3 stOpen 0 "requests" "1.0" resp404).result =
      Except.error (PyError.packageNotFound "https://pypi.org/pypi/requests/1.0/json" none) ∧
    "https://pypi.org/pypi/requests/1.0/json" ≠ "requests" ∧
    (none : Option String) ≠ some "1.0" :=
  ⟨rfl, by decide, by decide⟩

/-- Claim C9, counterexample: a 429 response whose `Retry-After` header is
`"abc"` makes `get_package` raise a built-in `ValueError` (from
`int("abc")`), an error outside the claim's taxonomy of defined
conditions. -/
theorem get_package_generic_error_counterexample :
    (get_package cfg3 stOpen 0 "requests" resp429bad).result =
      Except.error (PyError.valueError "abc") ∧
    claimedCondition (PyError.valueError "abc") = false :=
  ⟨rfl, rfl⟩

/-! ## Witnesses -/

theorem request_exhausts_retries_witness :
    _request stOpen cfg3 "https://pypi.org/pypi/test/json" resp500 =
      { outcome := Except.error (PyError.serverError 500 none), attempts := 3
        sleeps := [1, 2] } := by
  obtain ⟨e, he, heq⟩ := request_exhausts_retries stOpen cfg3 "https://pypi.org/pypi/test/json"
    resp500 rfl (by decide) (fun i _ => ⟨PyError.serverError 500 none, rfl, rfl⟩)
  have he' : e = PyError.serverError 500 none :=
    Except.error.inj (he.symm.trans
      (rfl : attemptResult "https://pypi.org/pypi/test/json" (resp500 (cfg3.max_retries - 1)) =
        Except.error (PyError.serverError 500 none)))
  subst he'
  have hsleeps : (List.range (cfg3.max_retries - 1)).map
      (fun i => cfg3.retry_backoff * 2 ^ i) = [1, 2] := by
    show (List.range 2).map (fun i => (1 : ℚ) * 2 ^ i) = [1, 2]
    norm_num [List.range_succ]
  rw [heq, hsleeps]
  rfl

theorem request_404_immediate_witness :
    _request stOpen cfg3 "https://pypi.org/pypi/nonexistent/json" resp404 =
      { outcome := Except.error
          (PyError.packageNotFound "https://pypi.org/pypi/nonexistent/json" none)
        attempts := 1, sleeps := [] } := by
  have h := request_404_immediate stOpen cfg3 "https://pypi.org/pypi/nonexistent/json" resp404 0
    rfl (by decide) (fun i hi => absurd hi (by omega))
    ⟨{ status := 404, retryAfter := none, body := JSON.null }, rfl, rfl⟩
  rw [h]
  rfl

theorem required_fields_parse_failures_witness :
    (∃ e, PackageInfo.from_dict infoMissingName = Except.error e ∧ parseErrorKind e = true ∧
      httpErrorKind e = false ∧ caughtByRetryHandler e = false) ∧
    (∃ v, JSON.lookup sampleBody "last_serial" = some v) ∧
    get_package cfg3 { session := true, cache := none } 0 "badpkg" resp200bad =
      { result := Except.error (PyError.keyError "info"), httpAttempts := 1, sleeps := []
        state := { session := true, cache := none } } :=
  ⟨required_fields_parse_failures.1 infoMissingName "name" (Or.inl rfl) rfl,
   required_fields_parse_failures.2.1 sampleBody sampleMeta rfl,
   required_fields_parse_failures.2.2 cfg3 0 "badpkg" resp200bad badBody
     (PyError.keyError "info") (by decide) rfl rfl⟩

theorem get_package_caches_witness :
    ∃ st1,
      get_package cfgCache { session := true, cache := initCache cfgCache.cache_ttl } 0
          "requests" resp200 =
        { result := Except.ok (Cached.pkg sampleMeta), httpAttempts := 1, sleeps := []
          state := st1 } ∧
      get_package cfgCache st1 0 "requests" resp200 =
        { result := Except.ok (Cached.pkg sampleMeta), httpAttempts := 0, sleeps := []
          state := st1 } :=
  get_package_caches cfgCache "requests" resp200 resp200 0 0 sampleBody sampleMeta rfl
    (by decide) rfl rfl (by norm_num)

theorem releases_keys_are_parsed_witness :
    getObjD badVersionBody "releases" = Except.ok [("x", JSON.arr [])] ∧
    ∃ e, PackageMetadata.from_dict badVersionBody = Except.error e ∧ parseErrorKind e = true :=
  ⟨rfl, (releases_keys_are_parsed badVersionBody [("x", JSON.arr [])] rfl).2
    ("x", JSON.arr []) (List.mem_singleton.mpr rfl) rfl⟩

theorem versions_sorted_and_latest_witness :
    oneVersionMeta.releases ≠ [] ∧
    (oneVersionMeta.versions.Pairwise (fun a b => Version.le a b = true) ∧
     oneVersionMeta.versions.Perm (oneVersionMeta.releases.map Prod.fst) ∧
     ∃ l, oneVersionMeta.latest_version = some l ∧ l ∈ oneVersionMeta.versions ∧
       (oneVersionMeta.versions.filter (fun v => !v.is_prerelease) ≠ [] →
         l.is_prerelease = false ∧
         ∀ v ∈ oneVersionMeta.versions, v.is_prerelease = false → Version.le v l = true) ∧
       (oneVersionMeta.versions.filter (fun v => !v.is_prerelease) = [] →
         ∀ v ∈ oneVersionMeta.versions, Version.le v l = true)) :=
  ⟨by simp [oneVersionMeta], versions_sorted_and_latest oneVersionMeta (by simp [oneVersionMeta])⟩

theorem get_release_notFound_fields_witness :
    "https://pypi.org/pypi/requests/1.0/json" =
      cfg3.base_url ++ "/pypi/" ++ "requests" ++ "/" ++ "1.0" ++ "/json" ∧
    (none : Option String) = none :=
  get_release_notFound_fields cfg3 stOpen 0 "requests" "1.0" resp404
    "https://pypi.org/pypi/requests/1.0/json" none rfl

end PyPIJsonModel
